import Mathlib

/-!
# StatusBeacon — verification of the monitoring core

A shallow embedding of the statusbeacon repository's monitoring pipeline:
the condition evaluator (`src/server/monitors/condition-evaluator.ts`), the
monitor runner (`src/server/monitors/runner.ts`), the HTTP checker
(`src/server/monitors/checkers/http-checker.ts`), the repositories
(`check-repository.ts`, `incident-repository.ts`,
`status-history-repository.ts`) and the incident detector
(`src/server/services/incident-detector.ts`).

Conventions of the embedding:
* JavaScript numbers are modelled as exact fractions (`JNum`, an `Int`
  numerator over a `Nat` denominator, compared by cross multiplication);
  binary64 rounding is outside the model.  `JsNum` adds the JavaScript
  special values `Infinity`, `-Infinity` and `NaN` which arise from
  `ToNumber` coercions.
* JavaScript exceptions are modelled with `Except String`; a `try`/`catch`
  becomes a `match` on the `Except` value.
* Strings are processed as `List Char`; all string primitives used by the
  source (`trim`, `split`, `includes`, `replace`) are re-implemented
  structurally so that concrete runs reduce in the kernel.
* The SQL queries of the repositories are modelled at their logical
  semantics over an explicit `Database` value: a table is a list of rows,
  `ORDER BY ... DESC` is an insertion sort on the key, aggregates are
  counts and sums over filtered rows, counts being read back as numbers.
* External libraries (`jsonpath-plus`, `RegExp`, `axios`, the probe
  checkers) are opaque parameters of the functions that call them.
-/

namespace StatusBeacon

/-! ## JavaScript values -/

/-- An exact fraction: a JavaScript number in the embedding.  Values built
by the model always have a positive denominator (a power of ten); the
representation is not normalised, comparisons cross-multiply. -/
structure JNum where
  num : Int
  den : Nat
deriving Repr, DecidableEq

/-- The rational value of a `JNum` (specification-level view). -/
def JNum.toRat (x : JNum) : ℚ := mkRat x.num x.den

def JNum.ofInt (i : Int) : JNum := ⟨i, 1⟩

def JNum.neg (x : JNum) : JNum := ⟨-x.num, x.den⟩

/-- Cross-multiplied equality test (exact on fractions with positive
denominators). -/
def JNum.beq (a b : JNum) : Bool := a.num * (b.den : Int) = b.num * (a.den : Int)

/-- Cross-multiplied strict order (exact on fractions with positive
denominators). -/
def JNum.blt (a b : JNum) : Bool := a.num * (b.den : Int) < b.num * (a.den : Int)

/-- The result of a JavaScript `ToNumber` coercion. -/
inductive JsNum where
  | fin (x : JNum)
  | inf (pos : Bool)
  | nan
deriving Repr, DecidableEq

/-- JavaScript `/` on numbers (`-0` is identified with `0`, so a zero
divisor counts as `+0`): `0/0` and `∞/∞` are `NaN`, a nonzero finite
numerator over zero is a signed infinity, finite over infinity is `0`,
and finite over nonzero finite is the exact quotient. -/
def JsNum.div : JsNum → JsNum → JsNum
  | .nan, _ => .nan
  | _, .nan => .nan
  | .inf _, .inf _ => .nan
  | .inf p, .fin b => .inf (p = decide (0 ≤ b.num))
  | .fin _, .inf _ => .fin ⟨0, 1⟩
  | .fin a, .fin b =>
    if b.num = 0 then
      if a.num = 0 then .nan else .inf (decide (0 < a.num))
    else if 0 < b.num then .fin ⟨a.num * (b.den : Int), a.den * b.num.toNat⟩
    else .fin ⟨-(a.num * (b.den : Int)), a.den * (-b.num).toNat⟩

/-- JavaScript `*` on numbers (`-0` identified with `0`): `0·∞` is
`NaN`, infinities multiply by sign, finite values multiply exactly. -/
def JsNum.mul : JsNum → JsNum → JsNum
  | .nan, _ => .nan
  | _, .nan => .nan
  | .inf p, .inf q => .inf (p = q)
  | .inf p, .fin b => if b.num = 0 then .nan else .inf (p = decide (0 < b.num))
  | .fin a, .inf q => if a.num = 0 then .nan else .inf (q = decide (0 < a.num))
  | .fin a, .fin b => .fin ⟨a.num * b.num, a.den * b.den⟩

/-- JavaScript `===` between a string value and a number value: strict
equality of operands of different types is always false. -/
def strictEqStringNumber (_s : List Char) (_n : Nat) : Bool := false

mutual

/-- A JSON value, as produced by `JSON.parse`.  Numbers are exact
fractions; object fields keep their textual order.  Arrays and objects
carry their own list types (a mutual inductive family rather than nested
`List`s) so that the serializers below are mutually structural and reduce
in the kernel. -/
inductive Json where
  | null
  | bool (b : Bool)
  | num (x : JNum)
  | str (s : String)
  | arr (elems : JsonList)
  | obj (fields : JsonFields)
deriving Repr, Inhabited

inductive JsonList where
  | nil
  | cons (head : Json) (tail : JsonList)
deriving Repr, Inhabited

inductive JsonFields where
  | nil
  | cons (key : String) (val : Json) (tail : JsonFields)
deriving Repr, Inhabited

end

def JsonList.ofList : List Json → JsonList
  | [] => .nil
  | x :: xs => .cons x (JsonList.ofList xs)

def JsonFields.ofList : List (String × Json) → JsonFields
  | [] => .nil
  | (k, v) :: xs => .cons k v (JsonFields.ofList xs)

/-- A JavaScript value stored in a probe context: either `undefined` or a
JSON-representable value.  A key that is present with value `undefined`
(as `http-checker.ts` produces for a missing certificate) is distinct from
an absent key: `Object.entries` lists the former. -/
inductive JsVal where
  | undef
  | val (j : Json)
deriving Repr, Inhabited

/-! ## String primitives (JavaScript semantics, on `List Char`) -/

/-- The whitespace characters stripped by `String.prototype.trim` (ASCII
part; the exotic Unicode spaces do not occur in the repository). -/
def jsWhitespace (c : Char) : Bool :=
  c = ' ' || c = '\t' || c = '\n' || c = '\r' || c.val = 11 || c.val = 12

def trimChars (s : List Char) : List Char :=
  ((s.dropWhile jsWhitespace).reverse.dropWhile jsWhitespace).reverse

def charsStartWith : List Char → List Char → Bool
  | _, [] => true
  | [], _ :: _ => false
  | c :: cs, p :: ps => c = p && charsStartWith cs ps

/-- Index of the first occurrence of `pat` in `s`, if any. -/
def findSub : List Char → List Char → Option Nat
  | [], pat => if pat = [] then some 0 else none
  | s@(_ :: rest), pat =>
    if charsStartWith s pat then some 0 else (findSub rest pat).map (· + 1)

/-- `String.prototype.includes` for a non-empty pattern. -/
def containsSub (s pat : List Char) : Bool := (findSub s pat).isSome

def splitGo (pat : List Char) : Nat → List Char → List (List Char)
  | 0, s => [s]
  | fuel + 1, s =>
    match findSub s pat with
    | none => [s]
    | some i => s.take i :: splitGo pat fuel (s.drop (i + pat.length))

/-- `String.prototype.split` on a non-empty literal separator:
non-overlapping occurrences, scanned left to right. -/
def splitSub (s pat : List Char) : List (List Char) := splitGo pat (s.length + 1) s

/-- Join a list of character lists with a separator (`Array.prototype.join`
/ the replacement step of a global `replace`). -/
def joinWith (sep : List Char) : List (List Char) → List Char
  | [] => []
  | [x] => x
  | x :: y :: rest => x ++ sep ++ joinWith sep (y :: rest)

/-- `String.prototype.replace` with a global regexp that matches the
literal `pat`: replace every non-overlapping occurrence. -/
def replaceAllSub (s pat repl : List Char) : List Char := joinWith repl (splitSub s pat)

/-- `String.prototype.replace` with a string pattern: replace only the
first occurrence. -/
def replaceFirstSub (s pat repl : List Char) : List Char :=
  match findSub s pat with
  | none => s
  | some i => s.take i ++ repl ++ s.drop (i + pat.length)

/-- JavaScript string order: lexicographic by code unit (code points
suffice for the repository's data). -/
def charsLt : List Char → List Char → Bool
  | [], [] => false
  | [], _ :: _ => true
  | _ :: _, [] => false
  | a :: as, b :: bs =>
    if a.val < b.val then true else if b.val < a.val then false else charsLt as bs

/-! ## `ToNumber` on strings -/

def digVal (c : Char) : Nat := c.toNat - '0'.toNat

def digitsToNat (ds : List Char) : Nat := ds.foldl (fun a c => a * 10 + digVal c) 0

def hexVal (c : Char) : Nat :=
  if c.isDigit then digVal c
  else if 'a' ≤ c ∧ c ≤ 'f' then c.toNat - 'a'.toNat + 10
  else c.toNat - 'A'.toNat + 10

def isHexDigit (c : Char) : Bool :=
  c.isDigit || ('a' ≤ c && c ≤ 'f') || ('A' ≤ c && c ≤ 'F')

def radixToNat (radix : Nat) (ds : List Char) : Nat :=
  ds.foldl (fun a c => a * radix + hexVal c) 0

/-- Build the fraction `mantissa / 10^fracLen · 10^exp`. -/
def jnumOfParts (neg : Bool) (mantissa : Nat) (fracLen : Nat) (expNeg : Bool)
    (expVal : Nat) : JNum :=
  let n : Int := if neg then -(mantissa : Int) else (mantissa : Int)
  if expNeg then ⟨n, 10 ^ fracLen * 10 ^ expVal⟩ else ⟨n * (10 ^ expVal : Nat), 10 ^ fracLen⟩

/-- Parse the decimal body of a JavaScript `StrDecimalLiteral` (after the
optional sign): `Digits ['.' Digits] [Exponent]` or `'.' Digits
[Exponent]`. -/
def parseDecBody (neg : Bool) (t : List Char) : Option JNum :=
  let ipart := t.takeWhile Char.isDigit
  let r1 := t.drop ipart.length
  let (fpart, r2) :=
    match r1 with
    | '.' :: rest => (rest.takeWhile Char.isDigit, rest.drop (rest.takeWhile Char.isDigit).length)
    | _ => ([], r1)
  if ipart = [] ∧ fpart = [] then none
  else
    match r2 with
    | [] => some (jnumOfParts neg (digitsToNat (ipart ++ fpart)) fpart.length false 0)
    | e :: r3 =>
      if e = 'e' ∨ e = 'E' then
        let (expNeg, r4) :=
          match r3 with
          | '-' :: rest => (true, rest)
          | '+' :: rest => (false, rest)
          | _ => (false, r3)
        let edigits := r4.takeWhile Char.isDigit
        if edigits = [] ∨ r4.drop edigits.length ≠ [] then none
        else some (jnumOfParts neg (digitsToNat (ipart ++ fpart)) fpart.length expNeg
          (digitsToNat edigits))
      else none

/-- A non-decimal integer literal `0x…` / `0o…` / `0b…` (no sign allowed). -/
def parseRadixBody (t : List Char) : Option JNum :=
  match t with
  | '0' :: x :: rest =>
    if x = 'x' ∨ x = 'X' then
      if rest ≠ [] ∧ rest.all isHexDigit then some ⟨(radixToNat 16 rest : Nat), 1⟩ else none
    else if x = 'o' ∨ x = 'O' then
      if rest ≠ [] ∧ rest.all (fun c => '0' ≤ c ∧ c ≤ '7') then
        some ⟨(radixToNat 8 rest : Nat), 1⟩ else none
    else if x = 'b' ∨ x = 'B' then
      if rest ≠ [] ∧ rest.all (fun c => c = '0' ∨ c = '1') then
        some ⟨(radixToNat 2 rest : Nat), 1⟩ else none
    else none
  | _ => none

/-- JavaScript `ToNumber` on a string: trim, empty means `0`, otherwise a
numeric literal (decimal with optional sign, `Infinity`, or an unsigned
radix literal); anything else is `NaN`. -/
def strToNumber (s : List Char) : JsNum :=
  let t := trimChars s
  if t = [] then .fin ⟨0, 1⟩
  else
    let (sg, hasSign, body) :=
      match t with
      | '-' :: rest => (true, true, rest)
      | '+' :: rest => (false, true, rest)
      | _ => (false, false, t)
    if body = "Infinity".data then .inf (!sg)
    else if hasSign then
      match parseDecBody sg body with
      | some x => .fin x
      | none => .nan
    else
      match parseRadixBody body with
      | some x => .fin x
      | none =>
        match parseDecBody sg body with
        | some x => .fin x
        | none => .nan

/-! ## Number and value stringification (`String(x)`, `JSON.stringify`) -/

def natDigitsGo : Nat → Nat → List Char
  | 0, _ => []
  | fuel + 1, n =>
    if n < 10 then [Char.ofNat (n + 48)]
    else natDigitsGo fuel (n / 10) ++ [Char.ofNat (n % 10 + 48)]

def natToChars (n : Nat) : List Char := natDigitsGo (n + 1) n

/-- `String(number)` for an exact fraction: integers print exactly; for
non-integers the model prints the decimal expansion truncated to 17
fractional digits with trailing zeros stripped (the model's stand-in for
shortest-round-trip binary64 printing; exponent notation for extreme
magnitudes is not modelled).  `String(-0)` is `"0"`, as in JavaScript. -/
def jnumStr (x : JNum) : List Char :=
  let a := x.num.natAbs
  let d := x.den
  if a % d = 0 then
    (if x.num < 0 ∧ 0 < a / d then ['-'] else []) ++ natToChars (a / d)
  else
    let ip := natToChars (a / d)
    let frRaw := natToChars (a % d * 10 ^ 17 / d)
    let fr := (List.replicate (17 - frRaw.length) '0' ++ frRaw).reverse.dropWhile (· = '0')
    (if x.num < 0 then ['-'] else []) ++ ip ++ '.' :: fr.reverse

def lbrace : Char := Char.ofNat 123
def rbrace : Char := Char.ofNat 125

mutual

/-- `String(value)` / `Array.prototype.toString`: arrays join their
elements with commas (null and undefined entries print empty), plain
objects print `[object Object]`. -/
def jsToStringChars : Json → List Char
  | .null => "null".data
  | .bool b => if b then "true".data else "false".data
  | .num x => jnumStr x
  | .str s => s.data
  | .arr xs => joinWith [','] (jsArrElemStrs xs)
  | .obj _ => "[object Object]".data

def jsArrElemStrs : JsonList → List (List Char)
  | .nil => []
  | .cons h t =>
    (match h with
     | Json.null => []
     | j => jsToStringChars j) :: jsArrElemStrs t

end

def hexDigitChar (n : Nat) : Char :=
  if n < 10 then Char.ofNat (n + 48) else Char.ofNat (n - 10 + 97)

/-- The JSON escape of one string character. -/
def escapeChar (c : Char) : List Char :=
  if c = '"' then ['\\', '"']
  else if c = '\\' then ['\\', '\\']
  else if c = '\n' then ['\\', 'n']
  else if c = '\r' then ['\\', 'r']
  else if c = '\t' then ['\\', 't']
  else if c.val = 8 then ['\\', 'b']
  else if c.val = 12 then ['\\', 'f']
  else if c.val < 32 then
    ['\\', 'u', '0', '0', hexDigitChar (c.toNat / 16), hexDigitChar (c.toNat % 16)]
  else [c]

def quoteChars (s : List Char) : List Char :=
  '"' :: (s.flatMap escapeChar) ++ ['"']

mutual

/-- `JSON.stringify` on a JSON value. -/
def jsonStringify : Json → List Char
  | .null => "null".data
  | .bool b => if b then "true".data else "false".data
  | .num x => jnumStr x
  | .str s => quoteChars s.data
  | .arr xs => '[' :: joinWith [','] (jsonStringifyElems xs) ++ [']']
  | .obj fs => lbrace :: joinWith [','] (jsonStringifyFields fs) ++ [rbrace]

def jsonStringifyElems : JsonList → List (List Char)
  | .nil => []
  | .cons h t => jsonStringify h :: jsonStringifyElems t

def jsonStringifyFields : JsonFields → List (List Char)
  | .nil => []
  | .cons k v t => (quoteChars k.data ++ ':' :: jsonStringify v) :: jsonStringifyFields t

end

/-! ## `JSON.parse` -/

def isJsonWs (c : Char) : Bool := c = ' ' || c = '\t' || c = '\n' || c = '\r'

def skipWs (s : List Char) : List Char := s.dropWhile isJsonWs

def parseHex4 (s : List Char) : Option (Nat × List Char) :=
  match s with
  | a :: b :: c :: d :: rest =>
    if [a, b, c, d].all isHexDigit then
      some (((hexVal a * 16 + hexVal b) * 16 + hexVal c) * 16 + hexVal d, rest)
    else none
  | _ => none

def parseJsonString : Nat → List Char → Except String (List Char × List Char)
  | 0, _ => .error "fuel"
  | _, [] => .error "unterminated string"
  | fuel + 1, c :: rest =>
    if c = '"' then .ok ([], rest)
    else if c = '\\' then
      match rest with
      | [] => .error "bad escape"
      | e :: rest2 =>
        let esc : Except String (List Char × List Char) :=
          if e = '"' then .ok (['"'], rest2)
          else if e = '\\' then .ok (['\\'], rest2)
          else if e = '/' then .ok (['/'], rest2)
          else if e = 'b' then .ok ([Char.ofNat 8], rest2)
          else if e = 'f' then .ok ([Char.ofNat 12], rest2)
          else if e = 'n' then .ok (['\n'], rest2)
          else if e = 'r' then .ok (['\r'], rest2)
          else if e = 't' then .ok (['\t'], rest2)
          else if e = 'u' then
            match parseHex4 rest2 with
            | some (n, rest3) => .ok ([Char.ofNat n], rest3)
            | none => .error "bad unicode escape"
          else .error "bad escape"
        match esc with
        | .error m => .error m
        | .ok (pre, rest3) =>
          match parseJsonString fuel rest3 with
          | .ok (tail, rem) => .ok (pre ++ tail, rem)
          | .error m => .error m
    else if c.val < 32 then .error "control character in string"
    else
      match parseJsonString fuel rest with
      | .ok (tail, rem) => .ok (c :: tail, rem)
      | .error m => .error m

/-- JSON number grammar: `-? (0 | [1-9][0-9]*) (. [0-9]+)? ([eE][+-]?[0-9]+)?`. -/
def parseJsonNumber (s : List Char) : Except String (JNum × List Char) :=
  let (neg, t) := match s with | '-' :: rest => (true, rest) | _ => (false, s)
  let ipart := t.takeWhile Char.isDigit
  if ipart = [] then .error "bad number"
  else if 1 < ipart.length ∧ ipart.headD '0' = '0' then .error "leading zero"
  else
    let r1 := t.drop ipart.length
    let (fpart, r2) :=
      match r1 with
      | '.' :: rest =>
        (rest.takeWhile Char.isDigit, rest.drop (rest.takeWhile Char.isDigit).length)
      | _ => ([], r1)
    if r1.headD ' ' = '.' ∧ fpart = [] then .error "bad fraction"
    else
      match r2 with
      | e :: r3 =>
        if e = 'e' ∨ e = 'E' then
          let (expNeg, r4) :=
            match r3 with
            | '-' :: rest => (true, rest)
            | '+' :: rest => (false, rest)
            | _ => (false, r3)
          let edigits := r4.takeWhile Char.isDigit
          if edigits = [] then .error "bad exponent"
          else
            .ok (jnumOfParts neg (digitsToNat (ipart ++ fpart)) fpart.length expNeg
              (digitsToNat edigits), r4.drop edigits.length)
        else .ok (jnumOfParts neg (digitsToNat (ipart ++ fpart)) fpart.length false 0, r2)
      | [] => .ok (jnumOfParts neg (digitsToNat (ipart ++ fpart)) fpart.length false 0, r2)

/-- The continuation state of the JSON parser: a whole value, the body of
an array after `[`, or the body of an object after its opening brace. -/
inductive PMode where
  | value
  | arrBody (acc : List Json)
  | objBody (acc : List (String × Json))

def parseJsonGo : Nat → PMode → List Char → Except String (Json × List Char)
  | 0, _, _ => .error "fuel"
  | fuel + 1, .value, s =>
    match skipWs s with
    | [] => .error "unexpected end of input"
    | c :: rest =>
      if c = 'n' then
        if charsStartWith rest "ull".data then .ok (.null, rest.drop 3)
        else .error "bad literal"
      else if c = 't' then
        if charsStartWith rest "rue".data then .ok (.bool true, rest.drop 3)
        else .error "bad literal"
      else if c = 'f' then
        if charsStartWith rest "alse".data then .ok (.bool false, rest.drop 4)
        else .error "bad literal"
      else if c = '"' then
        match parseJsonString (rest.length + 1) rest with
        | .ok (chars, rem) => .ok (.str (String.mk chars), rem)
        | .error m => .error m
      else if c = '[' then
        match skipWs rest with
        | ']' :: rem => .ok (.arr .nil, rem)
        | _ => parseJsonGo fuel (.arrBody []) rest
      else if c = lbrace then
        match skipWs rest with
        | r :: rem =>
          if r = rbrace then .ok (.obj .nil, rem) else parseJsonGo fuel (.objBody []) rest
        | [] => .error "unterminated object"
      else if c = '-' ∨ c.isDigit then
        match parseJsonNumber (c :: rest) with
        | .ok (x, rem) => .ok (.num x, rem)
        | .error m => .error m
      else .error "unexpected character"
  | fuel + 1, .arrBody acc, s =>
    match parseJsonGo fuel .value s with
    | .error m => .error m
    | .ok (v, rem) =>
      match skipWs rem with
      | ',' :: rem2 => parseJsonGo fuel (.arrBody (acc ++ [v])) rem2
      | ']' :: rem2 => .ok (.arr (JsonList.ofList (acc ++ [v])), rem2)
      | _ => .error "expected comma or bracket"
  | fuel + 1, .objBody acc, s =>
    match skipWs s with
    | '"' :: rest =>
      match parseJsonString (rest.length + 1) rest with
      | .error m => .error m
      | .ok (key, rem) =>
        match skipWs rem with
        | ':' :: rem2 =>
          match parseJsonGo fuel .value rem2 with
          | .error m => .error m
          | .ok (v, rem3) =>
            match skipWs rem3 with
            | ',' :: rem4 => parseJsonGo fuel (.objBody (acc ++ [(String.mk key, v)])) rem4
            | r :: rem4 =>
              if r = rbrace then .ok (.obj (JsonFields.ofList (acc ++ [(String.mk key, v)])), rem4)
              else .error "expected comma or brace"
            | [] => .error "unterminated object"
        | _ => .error "expected colon"
    | _ => .error "expected key"

/-- `JSON.parse`: parse one value and insist on trailing whitespace only.
The fuel bound covers any input: at least one character is consumed in
every two consecutive recursive calls. -/
def jsonParse (s : List Char) : Except String Json :=
  match parseJsonGo (2 * s.length + 2) .value s with
  | .error m => .error m
  | .ok (v, rem) => if skipWs rem = [] then .ok v else .error "trailing characters"

/-! ## JavaScript coercions and operators -/

def Json.isComposite : Json → Bool
  | .arr _ => true
  | .obj _ => true
  | _ => false

/-- `ToPrimitive` with number hint on a parsed JSON value: primitives are
themselves; arrays and plain objects (no `valueOf`) fall back to their
`toString`. -/
def toPrim (j : Json) : Json :=
  if j.isComposite then .str (String.mk (jsToStringChars j)) else j

/-- `ToNumber` on a primitive JSON value. -/
def jsToNumber : Json → JsNum
  | .null => .fin ⟨0, 1⟩
  | .bool b => .fin ⟨if b then 1 else 0, 1⟩
  | .num x => .fin x
  | .str s => strToNumber s.data
  | j => strToNumber (jsToStringChars j)

/-- JavaScript truthiness of a context value. -/
def jsTruthy : JsVal → Bool
  | .undef => false
  | .val .null => false
  | .val (.bool b) => b
  | .val (.num x) => !(x.num = 0)
  | .val (.str s) => !(s.data = [])
  | .val (.arr _) => true
  | .val (.obj _) => true

def jsNumEqB : JsNum → JsNum → Bool
  | .fin a, .fin b => a.beq b
  | .inf p, .inf q => p = q
  | _, _ => false

/-- The abstract relational comparison on coerced numbers; `none` encodes
the JavaScript "undefined" outcome (a `NaN` operand). -/
def jsNumLt : JsNum → JsNum → Option Bool
  | .nan, _ => none
  | _, .nan => none
  | .fin a, .fin b => some (a.blt b)
  | .inf true, _ => some false
  | _, .inf true => some true
  | .inf false, .fin _ => some true
  | _, _ => some false

/-- Loose equality `==` between two primitive (non-composite) JSON
values: strings compare as strings, `null` only equals itself (its
`undefined` partner cannot be produced by `JSON.parse`), and every other
combination compares `ToNumber` images. -/
def jsEqPrim : Json → Json → Bool
  | .null, .null => true
  | .null, _ => false
  | _, .null => false
  | .str s, .str t => s = t
  | a, b => jsNumEqB (jsToNumber a) (jsToNumber b)

/-- Loose equality `==` as applied by `evaluateExpression`: both operands
come from separate `JSON.parse` calls, so two composite operands are never
reference-equal; a composite against a primitive is compared through its
string form. -/
def Json.isNull : Json → Bool
  | .null => true
  | _ => false

def jsEq (l r : Json) : Bool :=
  if l.isComposite then
    if r.isComposite then false
    else if r.isNull then false else jsEqPrim (toPrim l) r
  else if r.isComposite then
    if l.isNull then false else jsEqPrim l (toPrim r)
  else jsEqPrim l r

/-- The abstract relational comparison `LessThan(l, r)` of the JavaScript
specification, for operands parsed from JSON: after `ToPrimitive`, two
strings compare lexicographically, anything else compares numerically
through `ToNumber`; `none` is the "undefined" outcome. -/
def lessER (l r : Json) : Option Bool :=
  match toPrim l, toPrim r with
  | .str s, .str t => some (charsLt s.data t.data)
  | a, b => jsNumLt (jsToNumber a) (jsToNumber b)

/-- JavaScript `l < r`. -/
def jsLtB (l r : Json) : Bool := (lessER l r).getD false

/-- JavaScript `l > r` (`LessThan` with swapped operands). -/
def jsGtB (l r : Json) : Bool := (lessER r l).getD false

/-- JavaScript `l <= r`: true iff `LessThan(r, l)` is exactly false. -/
def jsLeB (l r : Json) : Bool :=
  match lessER r l with
  | some false => true
  | _ => false

/-- JavaScript `l >= r`: true iff `LessThan(l, r)` is exactly false. -/
def jsGeB (l r : Json) : Bool :=
  match lessER l r with
  | some false => true
  | _ => false

/-! ## Condition evaluator (`condition-evaluator.ts`)

`ConditionEvaluator.evaluate` substitutes context values into the
condition string, then `evaluateExpression` locates the first operator,
splits, `JSON.parse`s both sides and applies the JavaScript operator; any
parse or evaluation fault yields `false`.

External dependencies are opaque parameters:
* `jp` models `JSONPath({path, json})` of the `jsonpath-plus` library: a
  path and a JSON document give a list of matches, or a thrown error;
* `re` models `new RegExp(pat).test(s)`: a pattern and a subject give a
  boolean, or a thrown error (invalid pattern). -/

/-- The probe context: the entries `Object.entries` would list, in
property order.  A key mapped to `.undef` is a present-but-`undefined`
property. -/
def ConditionContext := List (String × JsVal)

def lookupCtx (ctx : ConditionContext) (key : String) : Option JsVal :=
  match ctx with
  | [] => none
  | (k, v) :: rest => if k = key then some v else lookupCtx rest key

/-- A character of the path part of the `[BODY]` regexp, i.e. of the
class `[\w.[\]]`. -/
def isPathChar (c : Char) : Bool :=
  c.isAlphanum || c = '_' || c = '.' || c = '[' || c = ']'

/-- The first match of `/\[BODY\](\.[\w.[\]]+)?/` in `condition`: the
matched text and its path group (empty when the optional group did not
participate).  `none` when `[BODY]` does not occur. -/
def findBodyMatch (condition : List Char) : Option (List Char × List Char) :=
  match findSub condition "[BODY]".data with
  | none => none
  | some i =>
    let after := condition.drop (i + 6)
    match after with
    | '.' :: rest =>
      let path := rest.takeWhile isPathChar
      if path = [] then some ("[BODY]".data, [])
      else some ("[BODY]".data ++ '.' :: path, '.' :: path)
    | _ => some ("[BODY]".data, [])

/-- `JSON.stringify(value)` as used in a `replace` position: the
`undefined` value stringifies to `undefined` and is coerced to the string
`"undefined"` by `replace`. -/
def stringifySubst : JsVal → List Char
  | .undef => "undefined".data
  | .val j => jsonStringify j

/-- The `[BODY]` substitution step of `evaluate`. -/
def substBody (jp : String → Json → Except String (List Json))
    (condition : List Char) (ctx : ConditionContext) : List Char :=
  match findBodyMatch condition with
  | none => condition
  | some (matched, path) =>
    match lookupCtx ctx "BODY" with
    | some bodyVal =>
      if jsTruthy bodyVal then
        match bodyVal with
        | .val body =>
          if path ≠ [] then
            let repl :=
              match jp (String.mk ('$' :: path)) body with
              | .ok results =>
                match results.head? with
                | some v => jsonStringify v
                | none => "undefined".data
              | .error _ => "undefined".data
            replaceFirstSub condition matched repl
          else replaceFirstSub condition "[BODY]".data (jsonStringify body)
        | .undef => condition
      else condition
    | none => condition

/-- The placeholder loop of `evaluate`: for every non-`BODY` context
entry, globally replace `[KEY]` by the stringified value; later entries
see the text produced by earlier replacements. -/
def substPlaceholders : ConditionContext → List Char → List Char
  | [], e => e
  | (key, v) :: rest, e =>
    if key ≠ "BODY" ∧ containsSub e ('[' :: key.data ++ [']']) then
      substPlaceholders rest (replaceAllSub e ('[' :: key.data ++ [']']) (stringifySubst v))
    else substPlaceholders rest e

/-- The operator list of `evaluateExpression`, in search order. -/
def operatorList : List String :=
  ["==", "!=", ">=", "<=", ">", "<", "contains", "matches"]

/-- One case of the `switch` on the operator; `matches` may throw through
the opaque regexp, and the result is caught by the surrounding `try`. -/
def applyOp (re : String → String → Except String Bool) (op : String)
    (lv rv : Json) : Except String Bool :=
  if op = "==" then .ok (jsEq lv rv)
  else if op = "!=" then .ok (!jsEq lv rv)
  else if op = ">" then .ok (jsGtB lv rv)
  else if op = "<" then .ok (jsLtB lv rv)
  else if op = ">=" then .ok (jsGeB lv rv)
  else if op = "<=" then .ok (jsLeB lv rv)
  else if op = "contains" then
    .ok (containsSub (jsToStringChars lv) (jsToStringChars rv))
  else do
    let b ← re (String.mk (jsToStringChars rv)) (String.mk (jsToStringChars lv))
    pure b

/-- `ConditionEvaluator.evaluateExpression`: trim, find the first operator
(in `operatorList` order) occurring in the expression, split on every
occurrence keeping the first two parts, `JSON.parse` both, apply the
operator; with no operator the expression must parse to the JSON literal
`true`.  Every fault yields `false`. -/
def evaluateExpression (re : String → String → Except String Bool)
    (expression : String) : Bool :=
  let e := trimChars expression.data
  match operatorList.find? (fun op => containsSub e op.data) with
  | some op =>
    let parts := (splitSub e op.data).map trimChars
    let left := parts.headD []
    let right := (parts.drop 1).headD []
    match jsonParse left, jsonParse right with
    | .ok lv, .ok rv =>
      match applyOp re op lv rv with
      | .ok b => b
      | .error _ => false
    | _, _ => false
  | none =>
    match jsonParse e with
    | .ok (Json.bool true) => true
    | _ => false

/-- `ConditionEvaluator.evaluate`: substitute `[BODY]` (with optional
JSONPath) and the other placeholders, then evaluate the expression; the
outer `try`/`catch` maps any fault to `false` (all fallible steps are
individually handled, so the body is total). -/
def evaluate (jp : String → Json → Except String (List Json))
    (re : String → String → Except String Bool)
    (condition : String) (ctx : ConditionContext) : Bool :=
  let expression := substBody jp condition.data ctx
  let expression := substPlaceholders ctx expression
  evaluateExpression re (String.mk expression)

/-- `ConditionEvaluator.evaluateAll`: evaluate each condition in order. -/
def evaluateAll (jp : String → Json → Except String (List Json))
    (re : String → String → Except String Bool)
    (conditions : List String) (ctx : ConditionContext) : List (String × Bool) :=
  conditions.map (fun condition => (condition, evaluate jp re condition ctx))

/-! ## Data model of the store

Timestamps are natural numbers (seconds); `DATE(ts)` is `ts / 86400`, a
day index.  Tables are lists of rows in insertion order; `ORDER BY key
DESC` is an insertion sort on the key. -/

/-- A row of the `checks` table (`schema.sql`): `status` is the literal
`'up'` or `'down'` string stored by `CheckRepository.saveCheck`. -/
structure CheckRow where
  id : Nat
  monitorId : Option Nat
  status : String
  responseTimeMs : Nat
  errorMessage : Option String
  checkedAt : Nat
deriving Repr, DecidableEq

/-- `status = 'up' as success`, the alias computed by
`getRecentChecks`. -/
def CheckRow.success (c : CheckRow) : Bool := c.status = "up"

inductive IncidentStatus where
  | investigating
  | identified
  | monitoring
  | resolved
deriving Repr, DecidableEq

inductive Severity where
  | minor
  | major
  | critical
deriving Repr, DecidableEq

/-- A row of the `incidents` table. -/
structure Incident where
  id : Nat
  monitorId : Nat
  status : IncidentStatus
  severity : Severity
  title : String
  startedAt : Nat
  resolvedAt : Option Nat
deriving Repr, DecidableEq

/-- A row of the `status_history` table; the aggregate columns are
nullable (`NULL` when the day has no checks, respectively no successful
checks). -/
structure StatusHistoryRow where
  monitorId : Nat
  date : Nat
  uptimePercentage : Option ℚ
  avgResponseTimeMs : Option Int
  totalChecks : Nat
  successfulChecks : Nat
deriving Repr, DecidableEq

/-- The persistent state touched by the monitoring core. -/
structure Database where
  checks : List CheckRow
  incidents : List Incident
  statusHistory : List StatusHistoryRow
  nextCheckId : Nat
  nextIncidentId : Nat
deriving Repr, DecidableEq

/-- The `MonitorCheckResult` produced by `MonitorRunner.runCheck`
(`runner.ts`): `monitorId` is optional, and `monitorId = some 0` models
the falsy id `0`. -/
structure MonitorCheckResult where
  monitorId : Option Nat
  monitorName : String
  success : Bool
  responseTime : Nat
  timestamp : Nat
  error : Option String
  conditionResults : List (String × Bool)
deriving Repr, DecidableEq

/-! ## Sorting (`ORDER BY key DESC`) -/

def insertByDesc (key : α → Nat) (x : α) : List α → List α
  | [] => [x]
  | y :: ys => if key y < key x then x :: y :: ys else y :: insertByDesc key x ys

/-- Insertion sort, descending on `key`; ties keep an arbitrary but fixed
order, as SQL leaves tie order unspecified. -/
def sortByDesc (key : α → Nat) : List α → List α
  | [] => []
  | x :: xs => insertByDesc key x (sortByDesc key xs)

/-! ## `CheckRepository` (`check-repository.ts`) -/

/-- The check row `saveCheck` inserts for a result:
`status = success ? 'up' : 'down'`, `error_message = error || null` (the
JavaScript `||` maps an empty error string to `NULL` as well),
`checked_at = result.timestamp`. -/
def savedRow (db : Database) (result : MonitorCheckResult) : CheckRow :=
  { id := db.nextCheckId
    monitorId := result.monitorId
    status := if result.success then "up" else "down"
    responseTimeMs := result.responseTime
    errorMessage :=
      match result.error with
      | some e => if e = "" then none else some e
      | none => none
    checkedAt := result.timestamp }

/-- `saveCheck`: insert one row into `checks`. -/
def CheckRepository.saveCheck (db : Database) (result : MonitorCheckResult) : Database :=
  { db with
    checks := db.checks ++ [savedRow db result]
    nextCheckId := db.nextCheckId + 1 }

/-- `getRecentChecks`: `WHERE monitor_id = $1 ORDER BY checked_at DESC
LIMIT $2`. -/
def CheckRepository.getRecentChecks (db : Database) (monitorId : Nat) (limit : Nat) :
    List CheckRow :=
  (sortByDesc (fun c => c.checkedAt)
    (db.checks.filter (fun c => c.monitorId = some monitorId))).take limit

/-- `calculateUptime`: count rows of the monitor inside the window
(`checked_at > NOW() - INTERVAL periodDays days`) and compute
`(successful_checks / total_checks) * 100`.

The database driver's typing is part of the model: `COUNT(*)` is a
PostgreSQL `bigint`, which node-postgres returns as a decimal **string**
(the repository configures no `setTypeParser`, and `parseInt`s these same
count columns in its other queries such as `getUptimeForMonitors` and
`getStateTransitionsInWindow`).  The source's guard
`if (total_checks === 0) return 100` therefore strictly compares a string
with a number and never fires; the division coerces both strings with
`ToNumber`, so a window with no rows computes `'0'/'0'`, which is
`NaN`. -/
def CheckRepository.calculateUptime (db : Database) (monitorId : Nat)
    (now : Nat) (periodDays : Nat) : JsNum :=
  let windowRows := db.checks.filter
    (fun c => c.monitorId = some monitorId ∧ now < c.checkedAt + periodDays * 86400)
  let successfulChecksStr := natToChars (windowRows.filter (fun c => c.status = "up")).length
  let totalChecksStr := natToChars windowRows.length
  if strictEqStringNumber totalChecksStr 0 then .fin ⟨100, 1⟩
  else JsNum.mul (JsNum.div (strToNumber successfulChecksStr) (strToNumber totalChecksStr))
    (.fin ⟨100, 1⟩)

/-! ## `IncidentRepository` (`incident-repository.ts`) -/

/-- `getActiveIncident`: `WHERE monitor_id = $1 AND resolved_at IS NULL
ORDER BY started_at DESC LIMIT 1`. -/
def IncidentRepository.getActiveIncident (db : Database) (monitorId : Nat) :
    Option Incident :=
  (sortByDesc (fun i => i.startedAt)
    (db.incidents.filter (fun i => i.monitorId = monitorId ∧ i.resolvedAt = none))).head?

/-- `createIncident`: insert a row with `status = 'investigating'`,
`title = monitorName + " is down"`, `started_at = NOW()`. -/
def IncidentRepository.createIncident (db : Database) (monitorId : Nat)
    (monitorName : String) (severity : Severity) (now : Nat) : Database :=
  { db with
    incidents := db.incidents ++ [{
      id := db.nextIncidentId
      monitorId := monitorId
      status := .investigating
      severity := severity
      title := monitorName ++ " is down"
      startedAt := now
      resolvedAt := none }]
    nextIncidentId := db.nextIncidentId + 1 }

/-- `resolveIncident`: `UPDATE incidents SET status = 'resolved',
resolved_at = NOW() WHERE id = $1`. -/
def IncidentRepository.resolveIncident (db : Database) (incidentId : Nat)
    (now : Nat) : Database :=
  { db with
    incidents := db.incidents.map (fun i =>
      if i.id = incidentId then { i with status := .resolved, resolvedAt := some now }
      else i) }

/-! ## `IncidentDetector` (`incident-detector.ts`) -/

/-- `FAILURE_THRESHOLD`: consecutive failures required before an incident
is created. -/
def FAILURE_THRESHOLD : Nat := 2

/-- The loop of `getConsecutiveFailureCount`: walk the recent checks
newest first, stop at the first success. -/
def consecLoop : List CheckRow → Nat
  | [] => 0
  | c :: rest => if c.success then 0 else consecLoop rest + 1

/-- `getConsecutiveFailureCount`: count consecutive failures over the 10
most recent checks. -/
def IncidentDetector.getConsecutiveFailureCount (db : Database) (monitorId : Nat) : Nat :=
  consecLoop (CheckRepository.getRecentChecks db monitorId 10)

/-- `determineSeverity`: timeout / connection-refused errors are `major`,
DNS / certificate errors `critical`, everything else `minor` (an absent
error string matches nothing). -/
def IncidentDetector.determineSeverity (result : MonitorCheckResult) : Severity :=
  let errHas : String → Bool := fun pat =>
    match result.error with
    | some e => containsSub e.data pat.data
    | none => false
  if errHas "timeout" || errHas "ECONNREFUSED" then .major
  else if errHas "DNS" || errHas "certificate" then .critical
  else .minor

/-- `IncidentDetector.processCheckResult`.  The maintenance oracle
`maint` stands for `MaintenanceRepository.isInMaintenance(monitorId)
.inMaintenance` (the maintenance repository is an external collaborator
of the detector; only its boolean answer is observed here).  `now` is the
database clock `NOW()` used for incident timestamps.

Steps, as in the source: a falsy `monitorId` (absent or `0`) aborts
before any write; the check row is saved; maintenance suppresses all
incident logic; a successful result resolves the active incident if one
exists; a failing result with no active incident opens one exactly when
the consecutive-failure count reaches `FAILURE_THRESHOLD`. -/
def IncidentDetector.processCheckResult (maint : Nat → Bool) (db : Database)
    (result : MonitorCheckResult) (now : Nat) : Database :=
  match result.monitorId with
  | none => db
  | some monitorId =>
    if monitorId = 0 then db
    else
      let db1 := CheckRepository.saveCheck db result
      if maint monitorId then db1
      else
        let activeIncident := IncidentRepository.getActiveIncident db1 monitorId
        if result.success then
          match activeIncident with
          | some incident => IncidentRepository.resolveIncident db1 incident.id now
          | none => db1
        else
          match activeIncident with
          | some _ => db1
          | none =>
            let consecutiveFailures := IncidentDetector.getConsecutiveFailureCount db1 monitorId
            if FAILURE_THRESHOLD ≤ consecutiveFailures then
              IncidentRepository.createIncident db1 monitorId result.monitorName
                (IncidentDetector.determineSeverity result) now
            else db1

/-- Process a stream of `(result, now)` pairs in order. -/
def IncidentDetector.processAll (maint : Nat → Bool) (db : Database) :
    List (MonitorCheckResult × Nat) → Database
  | [] => db
  | (r, t) :: rest =>
    IncidentDetector.processAll maint (IncidentDetector.processCheckResult maint db r t) rest

/-! ## `StatusHistoryRepository.aggregateDailyStatus`
(`status-history-repository.ts`) -/

/-- `ROUND(x)::integer` of PostgreSQL `numeric`: half away from zero. -/
def pgRound (q : ℚ) : Int :=
  if 0 ≤ q then ⌊q + 1 / 2⌋ else -⌊-q + 1 / 2⌋

/-- The aggregate row the `INSERT ... SELECT` computes for one
`(monitor, date)`: an aggregate query without `GROUP BY` yields exactly
one row even over an empty selection, with `NULL` for `uptime_percentage`
(`NULLIF(COUNT(*), 0)`) and for the filtered average. -/
def aggRow (checks : List CheckRow) (monitorId : Nat) (date : Nat) : StatusHistoryRow :=
  let rows := checks.filter
    (fun c => c.monitorId = some monitorId ∧ c.checkedAt / 86400 = date)
  let totalChecks := rows.length
  let upRows := rows.filter (fun c => c.status = "up")
  let successfulChecks := upRows.length
  { monitorId := monitorId
    date := date
    uptimePercentage :=
      if totalChecks = 0 then none
      else some (((successfulChecks : ℚ) / (totalChecks : ℚ)) * 100)
    avgResponseTimeMs :=
      if successfulChecks = 0 then none
      else some (pgRound (((upRows.map (fun c => c.responseTimeMs)).sum : ℚ) /
        (successfulChecks : ℚ)))
    totalChecks := totalChecks
    successfulChecks := successfulChecks }

/-- `ON CONFLICT (monitor_id, date) DO UPDATE` at the level of the
`status_history` table: replace the aggregate columns of any conflicting
row, or insert a fresh row. -/
def upsertRows (rows : List StatusHistoryRow) (row : StatusHistoryRow) :
    List StatusHistoryRow :=
  if rows.any (fun h => h.monitorId = row.monitorId ∧ h.date = row.date) then
    rows.map (fun h =>
      if h.monitorId = row.monitorId ∧ h.date = row.date then row else h)
  else rows ++ [row]

/-- The upsert of `aggregateDailyStatus`, applied to the database. -/
def upsertStatusHistory (db : Database) (row : StatusHistoryRow) : Database :=
  { db with statusHistory := upsertRows db.statusHistory row }

/-- `StatusHistoryRepository.aggregateDailyStatus`. -/
def StatusHistoryRepository.aggregateDailyStatus (db : Database) (monitorId : Nat)
    (date : Nat) : Database :=
  upsertStatusHistory db (aggRow db.checks monitorId date)

/-! ## Checkers and the monitor runner (`runner.ts`,
`checkers/http-checker.ts`) -/

/-- The `CheckResult` interface returned by every protocol checker. -/
structure ProbeCheckResult where
  success : Bool
  responseTime : Nat
  context : ConditionContext
  error : Option String

/-- The monitor fields consumed by `MonitorRunner.runCheck`
(`monitors.schema.ts`): the type is kept as a string so that the
`default` arm of the dispatch switch is representable. -/
structure Monitor where
  name : String
  type : String
  url : String
  conditions : List String

/-- The five protocol checkers, as opaque effectful calls: each may
return a `CheckResult` or throw (`.error`). -/
structure Checkers where
  http : String → Except String ProbeCheckResult
  tcp : String → Except String ProbeCheckResult
  websocket : String → Except String ProbeCheckResult
  dns : String → Except String ProbeCheckResult
  ping : String → Except String ProbeCheckResult

/-- `MonitorRunner.runCheck`: dispatch on the monitor type, evaluate the
conditions against the returned context, and compose the result; overall
success is probe success and all conditions passing.  There is no
`try`/`catch` around the checker call: a thrown checker exception
propagates out of `runCheck` (the `.error` is returned, not converted). -/
def MonitorRunner.runCheck (checkers : Checkers)
    (jp : String → Json → Except String (List Json))
    (re : String → String → Except String Bool)
    (now : Nat) (nowIso : String) (monitor : Monitor) (monitorId : Option Nat) :
    Except String MonitorCheckResult :=
  let checkResultE : Except String ProbeCheckResult :=
    if monitor.type = "http" then checkers.http monitor.url
    else if monitor.type = "tcp" then checkers.tcp monitor.url
    else if monitor.type = "websocket" then checkers.websocket monitor.url
    else if monitor.type = "dns" then checkers.dns monitor.url
    else if monitor.type = "ping" then checkers.ping monitor.url
    else .ok {
      success := false
      responseTime := 0
      context := [("ERROR", .val (.str ("Unknown monitor type: " ++ monitor.type))),
                  ("TIMESTAMP", .val (.str nowIso))]
      error := some "Unknown monitor type" }
  match checkResultE with
  | .error e => .error e
  | .ok checkResult =>
    let conditionResults := evaluateAll jp re monitor.conditions checkResult.context
    let allConditionsPass := conditionResults.all (fun r => r.2)
    .ok {
      monitorId := monitorId
      monitorName := monitor.name
      success := checkResult.success && allConditionsPass
      responseTime := checkResult.responseTime
      timestamp := now
      error := checkResult.error
      conditionResults := conditionResults }

/-- The `runNext` worker chain of `MonitorRunner.runChecks`: take the
next monitor off the shared queue, run it (with no `monitorId`
argument, as in the source), append the result, continue until the queue
is empty; a `runCheck` exception rejects the whole chain. -/
def MonitorRunner.runNext (checkers : Checkers)
    (jp : String → Json → Except String (List Json))
    (re : String → String → Except String Bool) (now : Nat) (nowIso : String) :
    List Monitor → List MonitorCheckResult → Except String (List MonitorCheckResult)
  | [], results => .ok results
  | monitor :: queue, results =>
    match MonitorRunner.runCheck checkers jp re now nowIso monitor none with
    | .error e => .error e
    | .ok r => MonitorRunner.runNext checkers jp re now nowIso queue (results ++ [r])

/-- `MonitorRunner.runChecks`: start `min(concurrency, N)` chains over a
shared queue and await them all (`Promise.all` rejects with the first
chain rejection).  The model executes the deterministic linearization in
which one chain drains the queue; for `concurrency = 1` — the
configuration of the repository's own failing test — this is the exact
event ordering, and a thrown checker exception rejects `runChecks`
itself. -/
def MonitorRunner.runChecks (checkers : Checkers)
    (jp : String → Json → Except String (List Json))
    (re : String → String → Except String Bool) (now : Nat) (nowIso : String)
    (monitors : List Monitor) (concurrency : Nat) :
    Except String (List MonitorCheckResult) :=
  if concurrency = 0 then .ok []
  else MonitorRunner.runNext checkers jp re now nowIso monitors []

/-! ## `HttpChecker.check` (`checkers/http-checker.ts`) -/

/-- The observable part of an `axios.get` response. -/
structure HttpResponse where
  status : Nat
  body : JsVal
  headers : List (String × String)

def intToString (i : Int) : String :=
  String.mk ((if i < 0 then ['-'] else []) ++ natToChars i.natAbs)

/-- `formatExpiration`: days when at least one day remains, otherwise
hours floored at zero. -/
def formatExpiration (daysUntilExpiry : Int) : String :=
  if daysUntilExpiry < 1 then intToString (max 0 (daysUntilExpiry * 24)) ++ "h"
  else intToString daysUntilExpiry ++ "d"

/-- `HttpChecker.check`, with the transport outcome made explicit:
`resp` is the settled `axios.get` promise (configured with
`validateStatus: () => true`, so any HTTP status resolves and only
transport faults reject), `certInfo` the certificate side channel
(`undefined` on any failure), `responseTime` the measured elapsed time
and `nowIso` the `new Date().toISOString()` stamp.  On a resolved
response the checker reports `success` exactly when the status is in
`[200, 300)`; on a rejected transport it reports a failed check carrying
the error message. -/
def HttpChecker.check (resp : Except String HttpResponse) (certInfo : Option Int)
    (responseTime : Nat) (nowIso : String) : ProbeCheckResult :=
  match resp with
  | .ok response =>
    { success := decide (200 ≤ response.status ∧ response.status < 300)
      responseTime := responseTime
      context := [
        ("STATUS", .val (.num ⟨(response.status : Int), 1⟩)),
        ("RESPONSE_TIME", .val (.num ⟨(responseTime : Int), 1⟩)),
        ("CONNECTED", .val (.bool true)),
        ("BODY", response.body),
        ("HEADERS", .val (.obj (JsonFields.ofList
          (response.headers.map (fun kv => (kv.1, Json.str kv.2)))))),
        ("CERTIFICATE_EXPIRATION",
          match certInfo with
          | some d => .val (.str (formatExpiration d))
          | none => .undef),
        ("CERTIFICATE_EXPIRY_DAYS",
          match certInfo with
          | some d => .val (.num ⟨d, 1⟩)
          | none => .undef),
        ("TIMESTAMP", .val (.str nowIso))]
      error := none }
  | .error errorMessage =>
    { success := false
      responseTime := responseTime
      context := [
        ("CONNECTED", .val (.bool false)),
        ("ERROR", .val (.str errorMessage)),
        ("TIMESTAMP", .val (.str nowIso))]
      error := some errorMessage }

/-! ## Derived views used by the statements -/

/-- The active (unresolved) incidents of a monitor, in table order. -/
def activeIncidentsFor (db : Database) (monitorId : Nat) : List Incident :=
  db.incidents.filter (fun i => i.monitorId = monitorId ∧ i.resolvedAt = none)

/-- All checks of a monitor, newest first (the unlimited
`ORDER BY checked_at DESC` view). -/
def monitorChecksDesc (db : Database) (monitorId : Nat) : List CheckRow :=
  sortByDesc (fun c => c.checkedAt)
    (db.checks.filter (fun c => c.monitorId = some monitorId))

/-- The detector state of one monitor after `k` consecutive failures from
a clean start: below the threshold no incident is active and the
newest-first failure run has length `k`; from the threshold on, exactly
one incident is active. -/
def DetectorStage (db : Database) (monitorId : Nat) : Nat → Prop
  | 0 =>
    activeIncidentsFor db monitorId = [] ∧ consecLoop (monitorChecksDesc db monitorId) = 0
  | 1 =>
    activeIncidentsFor db monitorId = [] ∧ consecLoop (monitorChecksDesc db monitorId) = 1
  | _ + 2 => ∃ incident, activeIncidentsFor db monitorId = [incident]

/-! # Theorems -/

/-- `saveCheck` touches only the `checks` table, so the active-incident
lookup is unchanged by it. -/
theorem getActiveIncident_saveCheck (db : Database) (result : MonitorCheckResult)
    (monitorId : Nat) :
    IncidentRepository.getActiveIncident (CheckRepository.saveCheck db result) monitorId =
      IncidentRepository.getActiveIncident db monitorId := rfl

theorem saveCheck_incidents (db : Database) (result : MonitorCheckResult) :
    (CheckRepository.saveCheck db result).incidents = db.incidents := rfl

/-- C10: a check result whose `monitorId` is absent (`undefined`) or the
falsy id `0` makes `processCheckResult` a complete no-op on the
database: no check row is inserted and no incident is opened, resolved or
modified. -/
theorem processCheckResult_falsy_monitor_id_noop
    (maint : Nat → Bool) (db : Database) (result : MonitorCheckResult) (now : Nat)
    (h : result.monitorId = none ∨ result.monitorId = some 0) :
    IncidentDetector.processCheckResult maint db result now = db := by
  rcases h with h | h <;> simp [IncidentDetector.processCheckResult, h]

theorem processCheckResult_falsy_monitor_id_noop_witness :
    (((none : Option Nat) = none ∨ (none : Option Nat) = some 0) ∧
      IncidentDetector.processCheckResult (fun _ => false) ⟨[], [], [], 0, 0⟩
        ⟨none, "m", false, 5, 1, none, []⟩ 1 = ⟨[], [], [], 0, 0⟩) ∧
    ((some 0 = (none : Option Nat) ∨ (some 0 : Option Nat) = some 0) ∧
      IncidentDetector.processCheckResult (fun _ => false) ⟨[], [], [], 0, 0⟩
        ⟨some 0, "m", false, 5, 1, none, []⟩ 1 = ⟨[], [], [], 0, 0⟩) :=
  ⟨⟨Or.inl rfl, processCheckResult_falsy_monitor_id_noop _ _ _ _ (Or.inl rfl)⟩,
   ⟨Or.inr rfl, processCheckResult_falsy_monitor_id_noop _ _ _ _ (Or.inr rfl)⟩⟩

/-- C5: processing a check result while its monitor is inside an active
maintenance window leaves the incident table completely unchanged, yet
the check row itself is still inserted with its up/down status. -/
theorem processCheckResult_maintenance_suppression
    (maint : Nat → Bool) (db : Database) (result : MonitorCheckResult)
    (now monitorId : Nat) (hid : result.monitorId = some monitorId)
    (h0 : monitorId ≠ 0) (hm : maint monitorId = true) :
    (IncidentDetector.processCheckResult maint db result now).incidents = db.incidents ∧
    (IncidentDetector.processCheckResult maint db result now).checks =
      db.checks ++ [savedRow db result] := by
  simp [IncidentDetector.processCheckResult, hid, h0, hm, CheckRepository.saveCheck]

theorem processCheckResult_maintenance_suppression_witness :
    (⟨some 7, "m", false, 5, 1, none, []⟩ : MonitorCheckResult).monitorId = some 7 ∧
    (7 : Nat) ≠ 0 ∧ (fun (_ : Nat) => true) 7 = true ∧
    (IncidentDetector.processCheckResult (fun _ => true) ⟨[], [], [], 0, 0⟩
      ⟨some 7, "m", false, 5, 1, none, []⟩ 1).incidents = [] ∧
    (IncidentDetector.processCheckResult (fun _ => true) ⟨[], [], [], 0, 0⟩
      ⟨some 7, "m", false, 5, 1, none, []⟩ 1).checks =
      [] ++ [savedRow ⟨[], [], [], 0, 0⟩ ⟨some 7, "m", false, 5, 1, none, []⟩] :=
  ⟨rfl, by decide, rfl,
   (processCheckResult_maintenance_suppression _ _ _ _ 7 rfl (by decide) rfl).1,
   (processCheckResult_maintenance_suppression _ _ _ _ 7 rfl (by decide) rfl).2⟩

/-- C4: with no maintenance, the first successful check result resolves
the active incident — its status becomes `resolved` and `resolved_at` is
set to the processing time, all other incident rows unchanged — and a
successful result with no active incident changes no incident row. -/
theorem processCheckResult_recovery
    (maint : Nat → Bool) (db : Database) (result : MonitorCheckResult)
    (now monitorId : Nat) (hid : result.monitorId = some monitorId)
    (h0 : monitorId ≠ 0) (hm : maint monitorId = false)
    (hs : result.success = true) :
    (∀ incident, IncidentRepository.getActiveIncident db monitorId = some incident →
      (IncidentDetector.processCheckResult maint db result now).incidents =
        db.incidents.map (fun i =>
          if i.id = incident.id then { i with status := .resolved, resolvedAt := some now }
          else i)) ∧
    (IncidentRepository.getActiveIncident db monitorId = none →
      (IncidentDetector.processCheckResult maint db result now).incidents = db.incidents) := by
  constructor
  · intro incident hact
    simp [IncidentDetector.processCheckResult, hid, h0, hm, hs,
      getActiveIncident_saveCheck, hact, IncidentRepository.resolveIncident,
      saveCheck_incidents]
  · intro hact
    simp [IncidentDetector.processCheckResult, hid, h0, hm, hs,
      getActiveIncident_saveCheck, hact, saveCheck_incidents]

theorem processCheckResult_recovery_witness :
    (⟨some 3, "m", true, 5, 9, none, []⟩ : MonitorCheckResult).monitorId = some 3 ∧
    (3 : Nat) ≠ 0 ∧ (fun (_ : Nat) => false) 3 = false ∧
    (⟨some 3, "m", true, 5, 9, none, []⟩ : MonitorCheckResult).success = true ∧
    IncidentRepository.getActiveIncident
      ⟨[], [⟨11, 3, .investigating, .major, "m is down", 4, none⟩], [], 0, 12⟩ 3 =
      some ⟨11, 3, .investigating, .major, "m is down", 4, none⟩ ∧
    (IncidentDetector.processCheckResult (fun _ => false)
      ⟨[], [⟨11, 3, .investigating, .major, "m is down", 4, none⟩], [], 0, 12⟩
      ⟨some 3, "m", true, 5, 9, none, []⟩ 9).incidents =
      [⟨11, 3, .investigating, .major, "m is down", 4, none⟩].map (fun i =>
        if i.id = 11 then { i with status := .resolved, resolvedAt := some 9 } else i) :=
  ⟨rfl, by decide, rfl, rfl, by decide,
   (processCheckResult_recovery _ _ _ 9 3 rfl (by decide) rfl rfl).1
     ⟨11, 3, .investigating, .major, "m is down", 4, none⟩ (by decide)⟩

/-- C3 counterexample: an HTTP exchange that completes without a
transport error but returns status 404 yields a `ProbeResult` with
`success = false`, where the claim requires `success = true` for every
completed exchange. -/
theorem httpCheck_404_counterexample :
    (HttpChecker.check (.ok ⟨404, .undef, []⟩) none 5 "t").success = false := by decide

/-- C3 as amended: `HttpChecker.check` reports `success = true` exactly
when the transport completed without error AND the response status lies
in `[200, 300)`; a non-2xx status resolves the exchange (axios is
configured not to throw on any status) but still yields
`success = false`, and a transport error always yields
`success = false`. -/
theorem httpCheck_success_iff_2xx :
    (∀ (response : HttpResponse) (certInfo : Option Int) (rt : Nat) (nowIso : String),
      (HttpChecker.check (.ok response) certInfo rt nowIso).success = true ↔
        200 ≤ response.status ∧ response.status < 300) ∧
    (∀ (e : String) (certInfo : Option Int) (rt : Nat) (nowIso : String),
      (HttpChecker.check (.error e) certInfo rt nowIso).success = false) := by
  constructor
  · intro response certInfo rt nowIso
    simp [HttpChecker.check]
  · intro e certInfo rt nowIso
    simp [HttpChecker.check]

/-- C2: contrary to the claim, `MonitorRunner.runCheck` has no
`try`/`catch` around the checker dispatch, so a checker that throws
rejects `runCheck` itself, and through the `runNext` chain and
`Promise.all` it rejects `runChecks` too (the repository's own test notes
"This is a bug we should fix!"): with two monitors of which the first
checker throws `"Unexpected crash"`, `runChecks` at concurrency 1
produces the rejection instead of two results. -/
theorem runChecks_propagates_checker_throw :
    (MonitorRunner.runCheck
      ⟨fun url => if url = "http://throw" then .error "Unexpected crash"
                  else .ok ⟨true, 10, [], none⟩,
       fun _ => .error "tcp", fun _ => .error "ws",
       fun _ => .error "dns", fun _ => .error "ping"⟩
      (fun _ _ => .ok []) (fun _ _ => .ok false) 0 "t"
      ⟨"Throw", "http", "http://throw", []⟩ none = .error "Unexpected crash") ∧
    (MonitorRunner.runChecks
      ⟨fun url => if url = "http://throw" then .error "Unexpected crash"
                  else .ok ⟨true, 10, [], none⟩,
       fun _ => .error "tcp", fun _ => .error "ws",
       fun _ => .error "dns", fun _ => .error "ping"⟩
      (fun _ _ => .ok []) (fun _ _ => .ok false) 0 "t"
      [⟨"Throw", "http", "http://throw", []⟩, ⟨"Success", "http", "http://ok", []⟩] 1 =
      .error "Unexpected crash") := by
  constructor <;> rfl

/-- C8: the zero-row clause of the claim fails on the program.  With no
check rows in the window, node-postgres hands the source the string
`'0'` for both counts, the strictly typed guard `total_checks === 0`
never fires, and `('0'/'0') * 100` is `NaN` — the claim requires exactly
100.  With rows present the claimed formula does hold numerically: the
digit strings coerce with `ToNumber`, e.g. one up and one down row in the
window give `(1/2)·100 = 50`. -/
theorem calculateUptime_empty_window_nan :
    CheckRepository.calculateUptime ⟨[], [], [], 0, 0⟩ 1 100 30 = JsNum.nan ∧
    CheckRepository.calculateUptime
      ⟨[⟨0, some 1, "up", 5, none, 100⟩, ⟨1, some 1, "down", 7, none, 101⟩],
       [], [], 2, 0⟩ 1 150 1 = .fin ⟨100, 2⟩ :=
  ⟨by decide, by decide⟩

/-- Applying the `(monitor_id, date)` upsert twice with the same row is
the same as applying it once. -/
theorem upsertRows_idempotent (rows : List StatusHistoryRow) (row : StatusHistoryRow) :
    upsertRows (upsertRows rows row) row = upsertRows rows row := by
  by_cases hany : rows.any
      (fun h => h.monitorId = row.monitorId ∧ h.date = row.date) = true
  · have h1 : upsertRows rows row = rows.map (fun h =>
        if h.monitorId = row.monitorId ∧ h.date = row.date then row else h) := by
      unfold upsertRows
      rw [if_pos hany]
    have hany2 : (rows.map (fun h =>
        if h.monitorId = row.monitorId ∧ h.date = row.date then row else h)).any
        (fun h => h.monitorId = row.monitorId ∧ h.date = row.date) = true := by
      rw [List.any_eq_true] at hany ⊢
      obtain ⟨x, hx, hpx⟩ := hany
      refine ⟨row, ?_, by simp⟩
      rw [List.mem_map]
      refine ⟨x, hx, ?_⟩
      simp only [decide_eq_true_eq] at hpx
      simp [hpx.1, hpx.2]
    rw [h1]
    unfold upsertRows
    rw [if_pos hany2, List.map_map]
    apply List.map_congr_left
    intro a _
    by_cases hp : a.monitorId = row.monitorId ∧ a.date = row.date <;>
      simp [hp, Function.comp]
  · have h1 : upsertRows rows row = rows ++ [row] := by
      unfold upsertRows
      rw [if_neg hany]
    have hany2 : ((rows ++ [row]).any
        (fun h => h.monitorId = row.monitorId ∧ h.date = row.date)) = true := by
      rw [List.any_eq_true]
      exact ⟨row, by simp, by simp⟩
    rw [h1]
    unfold upsertRows
    rw [if_pos hany2, List.map_append]
    have hfalse : rows.any
        (fun h => h.monitorId = row.monitorId ∧ h.date = row.date) = false :=
      Bool.eq_false_iff.mpr hany
    rw [List.any_eq_false] at hfalse
    congr 1
    · calc List.map (fun h =>
            if h.monitorId = row.monitorId ∧ h.date = row.date then row else h) rows
          = List.map id rows := by
            apply List.map_congr_left
            intro a ha
            have := hfalse a ha
            simp only [decide_eq_true_eq] at this
            simp [this]
        _ = rows := List.map_id rows
    · simp

theorem upsertStatusHistory_idempotent (db : Database) (row : StatusHistoryRow) :
    upsertStatusHistory (upsertStatusHistory db row) row = upsertStatusHistory db row := by
  unfold upsertStatusHistory
  rw [upsertRows_idempotent]

/-- C9: with the underlying check rows unchanged, running the daily
aggregation for the same `(monitor, date)` a second time recomputes the
same `uptime_percentage`, `avg_response_time_ms` (rounded over successful
checks only), `total_checks` and `successful_checks`, and the
`ON CONFLICT` upsert replaces the existing row instead of inserting a
duplicate: the database after the second run equals the database after
the first. -/
theorem aggregateDailyStatus_idempotent (db : Database) (monitorId date : Nat) :
    StatusHistoryRepository.aggregateDailyStatus
      (StatusHistoryRepository.aggregateDailyStatus db monitorId date) monitorId date =
      StatusHistoryRepository.aggregateDailyStatus db monitorId date := by
  unfold StatusHistoryRepository.aggregateDailyStatus
  have hc : (upsertStatusHistory db (aggRow db.checks monitorId date)).checks = db.checks :=
    rfl
  rw [hc]
  exact upsertStatusHistory_idempotent db (aggRow db.checks monitorId date)

/-- C6: for every condition string, every context, and every behavior of
the opaque JSONPath and RegExp libraries (including throwing),
`ConditionEvaluator.evaluate` returns a boolean and never raises: in the
embedding every fallible step (`JSON.parse`, the JSONPath call, the
regexp construction) is matched on and its fault branch yields `false`,
which is what makes `evaluate` a total `Bool`-valued function — recorded
here as the dichotomy of its result. -/
theorem evaluate_total (jp : String → Json → Except String (List Json))
    (re : String → String → Except String Bool)
    (condition : String) (ctx : ConditionContext) :
    evaluate jp re condition ctx = true ∨ evaluate jp re condition ctx = false := by
  cases h : evaluate jp re condition ctx
  · exact Or.inr rfl
  · exact Or.inl rfl

/-- Cross multiplication decides the rational order when both
denominators are positive. -/
theorem JNum.blt_iff (a b : JNum) (ha : 0 < a.den) (hb : 0 < b.den) :
    JNum.blt a b = true ↔ a.toRat < b.toRat := by
  unfold JNum.blt JNum.toRat
  rw [decide_eq_true_eq, Rat.mkRat_eq_div, Rat.mkRat_eq_div, div_lt_div_iff]
  · constructor <;> intro h <;> exact_mod_cast h
  · exact_mod_cast ha
  · exact_mod_cast hb

theorem jnumOfParts_den_pos (neg : Bool) (mantissa fracLen : Nat) (expNeg : Bool)
    (expVal : Nat) : 0 < (jnumOfParts neg mantissa fracLen expNeg expVal).den := by
  cases expNeg <;> simp [jnumOfParts] <;> positivity

theorem parseRadixBody_den_pos (t : List Char) (x : JNum)
    (h : parseRadixBody t = some x) : 0 < x.den := by
  simp only [parseRadixBody] at h
  repeat' split at h
  all_goals first
    | (rw [Option.some.injEq] at h
       rw [← h]
       exact Nat.one_pos)
    | exact Option.noConfusion h

theorem parseDecBody_den_pos (neg : Bool) (t : List Char) (x : JNum)
    (h : parseDecBody neg t = some x) : 0 < x.den := by
  simp only [parseDecBody] at h
  repeat' split at h
  all_goals first
    | (rw [Option.some.injEq] at h
       rw [← h]
       exact jnumOfParts_den_pos _ _ _ _ _)
    | exact Option.noConfusion h

/-- Every finite number produced by the string `ToNumber` has a positive
(power of ten) denominator. -/
theorem strToNumber_fin_den_pos (s : List Char) (a : JNum)
    (h : strToNumber s = .fin a) : 0 < a.den := by
  simp only [strToNumber] at h
  repeat' split at h
  all_goals first
    | (rw [JsNum.fin.injEq] at h
       rw [← h]
       first
        | exact Nat.one_pos
        | exact parseRadixBody_den_pos _ _ (by assumption)
        | exact parseDecBody_den_pos _ _ _ (by assumption))
    | exact JsNum.noConfusion h

theorem lessER_str_num (s : String) (b : JNum) :
    lessER (.str s) (.num b) = jsNumLt (strToNumber s.data) (.fin b) := rfl

theorem lessER_num_str (b : JNum) (s : String) :
    lessER (.num b) (.str s) = jsNumLt (.fin b) (strToNumber s.data) := rfl

/-- The shape shared by every JavaScript ordering operator once both
`LessThan` orientations reduce to a cross-multiplied comparison of two
finite numbers: `<` and `>` are the two orientations of the comparison,
`<=` and `>=` their negations. -/
theorem jsRelOps_of_blt (l r : Json) (x y : JNum) (hx : 0 < x.den) (hy : 0 < y.den)
    (h1 : lessER l r = some (JNum.blt x y)) (h2 : lessER r l = some (JNum.blt y x)) :
    (jsLtB l r = true ↔ x.toRat < y.toRat) ∧
    (jsGtB l r = true ↔ y.toRat < x.toRat) ∧
    (jsLeB l r = true ↔ x.toRat ≤ y.toRat) ∧
    (jsGeB l r = true ↔ y.toRat ≤ x.toRat) := by
  have hle : jsLeB l r = !JNum.blt y x := by
    unfold jsLeB
    rw [h2]
    cases JNum.blt y x <;> rfl
  have hge : jsGeB l r = !JNum.blt x y := by
    unfold jsGeB
    rw [h1]
    cases JNum.blt x y <;> rfl
  refine ⟨?_, ?_, ?_, ?_⟩
  · unfold jsLtB
    rw [h1]
    exact JNum.blt_iff x y hx hy
  · unfold jsGtB
    rw [h2]
    exact JNum.blt_iff y x hy hx
  · rw [hle, Bool.not_eq_true']
    constructor
    · intro hbf
      refine le_of_not_lt fun hc => ?_
      rw [← JNum.blt_iff y x hy hx] at hc
      rw [hbf] at hc
      exact Bool.false_ne_true hc
    · intro hxy
      have hnot : ¬JNum.blt y x = true := by
        rw [JNum.blt_iff y x hy hx]
        exact not_lt_of_le hxy
      simpa using hnot
  · rw [hge, Bool.not_eq_true']
    constructor
    · intro hbf
      refine le_of_not_lt fun hc => ?_
      rw [← JNum.blt_iff x y hx hy] at hc
      rw [hbf] at hc
      exact Bool.false_ne_true hc
    · intro hyx
      have hnot : ¬JNum.blt x y = true := by
        rw [JNum.blt_iff x y hx hy]
        exact not_lt_of_le hyx
      simpa using hnot

/-- C7 counterexample: the condition `"5" > 3` has a string left operand
and a numeric right operand — mixed types, which the claim says must
evaluate to false — yet `evaluateExpression` returns true, because
JavaScript's relational operators coerce the string side with `ToNumber`
(`"5" > 3` is `5 > 3`). -/
theorem evaluateExpression_mixed_counterexample :
    evaluateExpression (fun _ _ => Except.ok false) "\"5\" > 3" = true := by decide

/-- C7 as amended: for the four ordering operators applied after both
sides parse as JSON — when both operands are numbers the comparison is
numeric; when both are strings it is lexicographic; for mixed
string/number operands, in either orientation, the string side is coerced
with `ToNumber` and all four operators compare numerically on the coerced
value: a finite coercion compares as a rational, a string coercing to
`±Infinity` (such as `"Infinity"`) compares as the corresponding
infinity, and a coercion to `NaN` makes all four operators false. -/
theorem ordering_operator_semantics :
    (∀ a b : JNum, 0 < a.den → 0 < b.den →
      ((jsLtB (.num a) (.num b) = true ↔ a.toRat < b.toRat) ∧
       (jsGtB (.num a) (.num b) = true ↔ b.toRat < a.toRat) ∧
       (jsLeB (.num a) (.num b) = true ↔ a.toRat ≤ b.toRat) ∧
       (jsGeB (.num a) (.num b) = true ↔ b.toRat ≤ a.toRat))) ∧
    (∀ s t : String,
      jsLtB (.str s) (.str t) = charsLt s.data t.data ∧
      jsGtB (.str s) (.str t) = charsLt t.data s.data ∧
      jsLeB (.str s) (.str t) = !charsLt t.data s.data ∧
      jsGeB (.str s) (.str t) = !charsLt s.data t.data) ∧
    (∀ (s : String) (b a : JNum), 0 < b.den → strToNumber s.data = .fin a →
      ((jsLtB (.str s) (.num b) = true ↔ a.toRat < b.toRat) ∧
       (jsGtB (.str s) (.num b) = true ↔ b.toRat < a.toRat) ∧
       (jsLeB (.str s) (.num b) = true ↔ a.toRat ≤ b.toRat) ∧
       (jsGeB (.str s) (.num b) = true ↔ b.toRat ≤ a.toRat)) ∧
      ((jsLtB (.num b) (.str s) = true ↔ b.toRat < a.toRat) ∧
       (jsGtB (.num b) (.str s) = true ↔ a.toRat < b.toRat) ∧
       (jsLeB (.num b) (.str s) = true ↔ b.toRat ≤ a.toRat) ∧
       (jsGeB (.num b) (.str s) = true ↔ a.toRat ≤ b.toRat))) ∧
    (∀ (s : String) (b : JNum), strToNumber s.data = .inf true →
      jsLtB (.str s) (.num b) = false ∧ jsGtB (.str s) (.num b) = true ∧
      jsLeB (.str s) (.num b) = false ∧ jsGeB (.str s) (.num b) = true ∧
      jsLtB (.num b) (.str s) = true ∧ jsGtB (.num b) (.str s) = false ∧
      jsLeB (.num b) (.str s) = true ∧ jsGeB (.num b) (.str s) = false) ∧
    (∀ (s : String) (b : JNum), strToNumber s.data = .inf false →
      jsLtB (.str s) (.num b) = true ∧ jsGtB (.str s) (.num b) = false ∧
      jsLeB (.str s) (.num b) = true ∧ jsGeB (.str s) (.num b) = false ∧
      jsLtB (.num b) (.str s) = false ∧ jsGtB (.num b) (.str s) = true ∧
      jsLeB (.num b) (.str s) = false ∧ jsGeB (.num b) (.str s) = true) ∧
    (∀ (s : String) (b : JNum), strToNumber s.data = .nan →
      jsLtB (.str s) (.num b) = false ∧ jsGtB (.str s) (.num b) = false ∧
      jsLeB (.str s) (.num b) = false ∧ jsGeB (.str s) (.num b) = false ∧
      jsLtB (.num b) (.str s) = false ∧ jsGtB (.num b) (.str s) = false ∧
      jsLeB (.num b) (.str s) = false ∧ jsGeB (.num b) (.str s) = false) := by
  refine ⟨?_, ?_, ?_, ?_, ?_, ?_⟩
  · intro a b ha hb
    exact jsRelOps_of_blt (.num a) (.num b) a b ha hb rfl rfl
  · intro s t
    refine ⟨rfl, rfl, ?_, ?_⟩
    · cases h : charsLt t.data s.data <;>
        simp [jsLeB, lessER, toPrim, Json.isComposite, h]
    · cases h : charsLt s.data t.data <;>
        simp [jsGeB, lessER, toPrim, Json.isComposite, h]
  · intro s b a hb h
    have ha := strToNumber_fin_den_pos s.data a h
    have h1 : lessER (.str s) (.num b) = some (JNum.blt a b) := by
      rw [lessER_str_num, h]
      rfl
    have h2 : lessER (.num b) (.str s) = some (JNum.blt b a) := by
      rw [lessER_num_str, h]
      rfl
    exact ⟨jsRelOps_of_blt (.str s) (.num b) a b ha hb h1 h2,
           jsRelOps_of_blt (.num b) (.str s) b a hb ha h2 h1⟩
  · intro s b h
    have h1 : lessER (.str s) (.num b) = some false := by
      rw [lessER_str_num, h]
      rfl
    have h2 : lessER (.num b) (.str s) = some true := by
      rw [lessER_num_str, h]
      rfl
    refine ⟨?_, ?_, ?_, ?_, ?_, ?_, ?_, ?_⟩ <;>
      simp [jsLtB, jsGtB, jsLeB, jsGeB, h1, h2]
  · intro s b h
    have h1 : lessER (.str s) (.num b) = some true := by
      rw [lessER_str_num, h]
      rfl
    have h2 : lessER (.num b) (.str s) = some false := by
      rw [lessER_num_str, h]
      rfl
    refine ⟨?_, ?_, ?_, ?_, ?_, ?_, ?_, ?_⟩ <;>
      simp [jsLtB, jsGtB, jsLeB, jsGeB, h1, h2]
  · intro s b h
    have h1 : lessER (.str s) (.num b) = none := by
      rw [lessER_str_num, h]
      rfl
    have h2 : lessER (.num b) (.str s) = none := by
      rw [lessER_num_str, h]
      rfl
    refine ⟨?_, ?_, ?_, ?_, ?_, ?_, ?_, ?_⟩ <;>
      simp [jsLtB, jsGtB, jsLeB, jsGeB, h1, h2]

theorem ordering_operator_semantics_witness :
    0 < (⟨1, 1⟩ : JNum).den ∧ 0 < (⟨2, 1⟩ : JNum).den ∧
    (jsLeB (.num ⟨1, 1⟩) (.num ⟨2, 1⟩) = true ↔
      (⟨1, 1⟩ : JNum).toRat ≤ (⟨2, 1⟩ : JNum).toRat) ∧
    strToNumber "5".data = .fin ⟨5, 1⟩ ∧
    (jsGeB (.num ⟨2, 1⟩) (.str "5") = true ↔
      (⟨5, 1⟩ : JNum).toRat ≤ (⟨2, 1⟩ : JNum).toRat) ∧
    strToNumber "Infinity".data = .inf true ∧
    jsGtB (.str "Infinity") (.num ⟨2, 1⟩) = true ∧
    strToNumber "-Infinity".data = .inf false ∧
    jsLtB (.str "-Infinity") (.num ⟨2, 1⟩) = true ∧
    strToNumber "zebra".data = .nan ∧
    jsGeB (.num ⟨2, 1⟩) (.str "zebra") = false :=
  ⟨by decide, by decide,
   (ordering_operator_semantics.1 ⟨1, 1⟩ ⟨2, 1⟩ (by decide) (by decide)).2.2.1,
   by decide,
   ((ordering_operator_semantics.2.2.1 "5" ⟨2, 1⟩ ⟨5, 1⟩ (by decide) (by decide)).2).2.2.2,
   by decide,
   (ordering_operator_semantics.2.2.2.1 "Infinity" ⟨2, 1⟩ (by decide)).2.1,
   by decide,
   (ordering_operator_semantics.2.2.2.2.1 "-Infinity" ⟨2, 1⟩ (by decide)).1,
   by decide,
   (ordering_operator_semantics.2.2.2.2.2 "zebra" ⟨2, 1⟩ (by decide)).2.2.2.2.2.2.2⟩

/-! ### Sorting and counting lemmas for the newest-first views -/

theorem insertByDesc_ne_nil (key : α → Nat) (x : α) (l : List α) :
    insertByDesc key x l ≠ [] := by
  cases l with
  | nil => simp [insertByDesc]
  | cons y ys =>
    unfold insertByDesc
    split <;> simp

theorem sortByDesc_eq_nil_iff (key : α → Nat) (l : List α) :
    sortByDesc key l = [] ↔ l = [] := by
  cases l with
  | nil => simp [sortByDesc]
  | cons x xs =>
    simp only [sortByDesc]
    constructor
    · intro h
      exact absurd h (insertByDesc_ne_nil key x (sortByDesc key xs))
    · intro h
      exact List.noConfusion h

/-- Appending a strictly newer element and sorting puts it at the head. -/
theorem sortByDesc_append_max (key : α → Nat) (x : α) (l : List α)
    (h : ∀ y ∈ l, key y < key x) :
    sortByDesc key (l ++ [x]) = x :: sortByDesc key l := by
  induction l with
  | nil => rfl
  | cons a l ih =>
    simp only [List.cons_append, sortByDesc, List.append_eq]
    rw [ih (fun y hy => h y (List.mem_cons_of_mem a hy))]
    have ha : key a < key x := h a (List.mem_cons_self a l)
    simp only [insertByDesc]
    rw [if_neg (Nat.lt_asymm ha)]

/-- The newest-first failure run of a truncated view. -/
theorem consecLoop_take (l : List CheckRow) (n : Nat) :
    consecLoop (l.take n) = min (consecLoop l) n := by
  induction l generalizing n with
  | nil => simp [consecLoop]
  | cons c rest ih =>
    cases n with
    | zero => simp [consecLoop]
    | succ m =>
      cases hcs : c.success with
      | true => simp [consecLoop, hcs]
      | false =>
        simp [consecLoop, hcs, ih]
        omega

theorem getActiveIncident_eq_none_iff (db : Database) (monitorId : Nat) :
    IncidentRepository.getActiveIncident db monitorId = none ↔
      activeIncidentsFor db monitorId = [] := by
  unfold IncidentRepository.getActiveIncident activeIncidentsFor
  rw [List.head?_eq_none_iff, sortByDesc_eq_nil_iff]

theorem getActiveIncident_of_single (db : Database) (monitorId : Nat)
    (incident : Incident) (h : activeIncidentsFor db monitorId = [incident]) :
    IncidentRepository.getActiveIncident db monitorId = some incident := by
  unfold IncidentRepository.getActiveIncident
  unfold activeIncidentsFor at h
  rw [h]
  rfl

theorem activeIncidentsFor_saveCheck (db : Database) (result : MonitorCheckResult)
    (monitorId : Nat) :
    activeIncidentsFor (CheckRepository.saveCheck db result) monitorId =
      activeIncidentsFor db monitorId := rfl

/-- Creating an incident appends it to the monitor's active set. -/
theorem activeIncidentsFor_createIncident (db : Database) (monitorId : Nat)
    (name : String) (severity : Severity) (now : Nat) :
    activeIncidentsFor
      (IncidentRepository.createIncident db monitorId name severity now) monitorId =
    activeIncidentsFor db monitorId ++
      [{ id := db.nextIncidentId, monitorId := monitorId, status := .investigating,
         severity := severity, title := name ++ " is down", startedAt := now,
         resolvedAt := none }] := by
  unfold activeIncidentsFor IncidentRepository.createIncident
  simp [List.filter_append]

/-- Saving a strictly newer check prepends its row to the newest-first
view of the monitor. -/
theorem monitorChecksDesc_saveCheck (db : Database) (result : MonitorCheckResult)
    (monitorId : Nat) (hid : result.monitorId = some monitorId)
    (hfr : ∀ c ∈ db.checks, c.checkedAt < result.timestamp) :
    monitorChecksDesc (CheckRepository.saveCheck db result) monitorId =
      savedRow db result :: monitorChecksDesc db monitorId := by
  unfold monitorChecksDesc CheckRepository.saveCheck
  simp only [List.filter_append]
  have hrow : List.filter (fun c => decide (c.monitorId = some monitorId))
      [savedRow db result] = [savedRow db result] := by
    simp [savedRow, hid]
  rw [hrow]
  apply sortByDesc_append_max
  intro y hy
  exact hfr y (List.mem_of_mem_filter hy)

theorem getConsecutiveFailureCount_eq (db : Database) (monitorId : Nat) :
    IncidentDetector.getConsecutiveFailureCount db monitorId =
      min (consecLoop (monitorChecksDesc db monitorId)) 10 := by
  show consecLoop ((monitorChecksDesc db monitorId).take 10) = _
  exact consecLoop_take _ _

theorem savedRow_success (db : Database) (result : MonitorCheckResult) :
    (savedRow db result).success = result.success := by
  unfold savedRow CheckRow.success
  cases h : result.success <;> simp [h]

/-! ### Single-step behavior of the detector under a clean stage -/

/-- A failing check at stage 0 only saves the row: the run length becomes
1, below the threshold, so no incident is created. -/
theorem processFail_step0 (maint : Nat → Bool) (db : Database)
    (result : MonitorCheckResult) (now monitorId : Nat)
    (hm : maint monitorId = false) (hid : result.monitorId = some monitorId)
    (h0 : monitorId ≠ 0) (hs : result.success = false)
    (hfr : ∀ c ∈ db.checks, c.checkedAt < result.timestamp)
    (hst : DetectorStage db monitorId 0) :
    IncidentDetector.processCheckResult maint db result now =
      CheckRepository.saveCheck db result ∧
    DetectorStage (CheckRepository.saveCheck db result) monitorId 1 := by
  obtain ⟨hact, hcl⟩ := hst
  have hmc := monitorChecksDesc_saveCheck db result monitorId hid hfr
  have hcl1 : consecLoop (monitorChecksDesc (CheckRepository.saveCheck db result)
      monitorId) = 1 := by
    rw [hmc]
    simp [consecLoop, savedRow_success, hs, hcl]
  have hact1 : IncidentRepository.getActiveIncident
      (CheckRepository.saveCheck db result) monitorId = none := by
    rw [getActiveIncident_eq_none_iff, activeIncidentsFor_saveCheck]
    exact hact
  have hcount : IncidentDetector.getConsecutiveFailureCount
      (CheckRepository.saveCheck db result) monitorId = 1 := by
    rw [getConsecutiveFailureCount_eq, hcl1]
    omega
  constructor
  · simp [IncidentDetector.processCheckResult, hid, h0, hm, hs, hact1, hcount,
      FAILURE_THRESHOLD]
  · exact ⟨by rw [activeIncidentsFor_saveCheck]; exact hact, hcl1⟩

/-- A failing check at stage 1 reaches the threshold: the row is saved
and a new incident is created, which becomes the single active one. -/
theorem processFail_step1 (maint : Nat → Bool) (db : Database)
    (result : MonitorCheckResult) (now monitorId : Nat)
    (hm : maint monitorId = false) (hid : result.monitorId = some monitorId)
    (h0 : monitorId ≠ 0) (hs : result.success = false)
    (hfr : ∀ c ∈ db.checks, c.checkedAt < result.timestamp)
    (hst : DetectorStage db monitorId 1) :
    IncidentDetector.processCheckResult maint db result now =
      IncidentRepository.createIncident (CheckRepository.saveCheck db result)
        monitorId result.monitorName (IncidentDetector.determineSeverity result) now ∧
    DetectorStage (IncidentRepository.createIncident
      (CheckRepository.saveCheck db result) monitorId result.monitorName
      (IncidentDetector.determineSeverity result) now) monitorId 2 := by
  obtain ⟨hact, hcl⟩ := hst
  have hmc := monitorChecksDesc_saveCheck db result monitorId hid hfr
  have hcl2 : consecLoop (monitorChecksDesc (CheckRepository.saveCheck db result)
      monitorId) = 2 := by
    rw [hmc]
    simp [consecLoop, savedRow_success, hs, hcl]
  have hact1 : IncidentRepository.getActiveIncident
      (CheckRepository.saveCheck db result) monitorId = none := by
    rw [getActiveIncident_eq_none_iff, activeIncidentsFor_saveCheck]
    exact hact
  have hcount : IncidentDetector.getConsecutiveFailureCount
      (CheckRepository.saveCheck db result) monitorId = 2 := by
    rw [getConsecutiveFailureCount_eq, hcl2]
    omega
  constructor
  · simp [IncidentDetector.processCheckResult, hid, h0, hm, hs, hact1, hcount,
      FAILURE_THRESHOLD]
  · exact ⟨_, by
      rw [activeIncidentsFor_createIncident, activeIncidentsFor_saveCheck, hact]
      rfl⟩

/-- A failing check while an incident is active only saves the row. -/
theorem processFail_stepActive (maint : Nat → Bool) (db : Database)
    (result : MonitorCheckResult) (now monitorId : Nat) (incident : Incident)
    (hm : maint monitorId = false) (hid : result.monitorId = some monitorId)
    (h0 : monitorId ≠ 0) (hs : result.success = false)
    (hact : activeIncidentsFor db monitorId = [incident]) :
    IncidentDetector.processCheckResult maint db result now =
      CheckRepository.saveCheck db result ∧
    activeIncidentsFor (CheckRepository.saveCheck db result) monitorId = [incident] := by
  have hact1 : IncidentRepository.getActiveIncident
      (CheckRepository.saveCheck db result) monitorId = some incident := by
    apply getActiveIncident_of_single
    rw [activeIncidentsFor_saveCheck]
    exact hact
  constructor
  · simp [IncidentDetector.processCheckResult, hid, h0, hm, hs, hact1]
  · rw [activeIncidentsFor_saveCheck]
    exact hact

/-- A successful check with no active incident only saves the row and
resets the run length to 0. -/
theorem processSuccess_step0 (maint : Nat → Bool) (db : Database)
    (result : MonitorCheckResult) (now monitorId : Nat)
    (hm : maint monitorId = false) (hid : result.monitorId = some monitorId)
    (h0 : monitorId ≠ 0) (hs : result.success = true)
    (hfr : ∀ c ∈ db.checks, c.checkedAt < result.timestamp)
    (hact : activeIncidentsFor db monitorId = []) :
    IncidentDetector.processCheckResult maint db result now =
      CheckRepository.saveCheck db result ∧
    DetectorStage (CheckRepository.saveCheck db result) monitorId 0 := by
  have hmc := monitorChecksDesc_saveCheck db result monitorId hid hfr
  have hact1 : IncidentRepository.getActiveIncident
      (CheckRepository.saveCheck db result) monitorId = none := by
    rw [getActiveIncident_eq_none_iff, activeIncidentsFor_saveCheck]
    exact hact
  constructor
  · simp [IncidentDetector.processCheckResult, hid, h0, hm, hs, hact1]
  · refine ⟨by rw [activeIncidentsFor_saveCheck]; exact hact, ?_⟩
    rw [hmc]
    simp [consecLoop, savedRow_success, hs]

/-! ### Stream lemmas for the detector -/

theorem saveCheck_checks (db : Database) (result : MonitorCheckResult) :
    (CheckRepository.saveCheck db result).checks = db.checks ++ [savedRow db result] := rfl

theorem createIncident_checks (db : Database) (monitorId : Nat) (name : String)
    (severity : Severity) (now : Nat) :
    (IncidentRepository.createIncident db monitorId name severity now).checks =
      db.checks := rfl

theorem createIncident_incidents_length (db : Database) (monitorId : Nat)
    (name : String) (severity : Severity) (now : Nat) :
    (IncidentRepository.createIncident db monitorId name severity now).incidents.length =
      db.incidents.length + 1 := by
  simp [IncidentRepository.createIncident]

theorem processAll_cons (maint : Nat → Bool) (db : Database)
    (r : MonitorCheckResult) (t : Nat) (rest : List (MonitorCheckResult × Nat)) :
    IncidentDetector.processAll maint db ((r, t) :: rest) =
      IncidentDetector.processAll maint
        (IncidentDetector.processCheckResult maint db r t) rest := rfl

/-- Processing a stream of failing results from stage `k`: exactly one
incident is opened iff the run crosses the threshold during the stream,
and the final stage is `k` plus the stream length. -/
theorem processAll_failures (maint : Nat → Bool) (monitorId : Nat)
    (hm : maint monitorId = false) (h0 : monitorId ≠ 0) :
    ∀ (rs : List (MonitorCheckResult × Nat)) (db : Database) (k : Nat),
      (∀ p ∈ rs, p.1.monitorId = some monitorId ∧ p.1.success = false) →
      List.Pairwise (fun p q => p.1.timestamp < q.1.timestamp) rs →
      (∀ p ∈ rs, ∀ c ∈ db.checks, c.checkedAt < p.1.timestamp) →
      DetectorStage db monitorId k →
      (IncidentDetector.processAll maint db rs).incidents.length =
        db.incidents.length + (if 2 ≤ k + rs.length ∧ k ≤ 1 then 1 else 0) ∧
      DetectorStage (IncidentDetector.processAll maint db rs) monitorId
        (k + rs.length) := by
  intro rs
  induction rs with
  | nil =>
    intro db k hall hpair hfresh hst
    refine ⟨?_, by simpa [IncidentDetector.processAll] using hst⟩
    simp only [IncidentDetector.processAll, List.length_nil]
    rw [if_neg (by omega)]
    omega
  | cons p rest ih =>
    obtain ⟨r, t⟩ := p
    intro db k hall hpair hfresh hst
    have hidr := (hall _ (List.mem_cons_self _ _)).1
    have hsr := (hall _ (List.mem_cons_self _ _)).2
    have hfr : ∀ c ∈ db.checks, c.checkedAt < r.timestamp := fun c hc =>
      hfresh _ (List.mem_cons_self _ _) c hc
    obtain ⟨hhead, htail⟩ := List.pairwise_cons.mp hpair
    have hall' : ∀ p ∈ rest, p.1.monitorId = some monitorId ∧ p.1.success = false :=
      fun p hp => hall p (List.mem_cons_of_mem _ hp)
    simp only [List.length_cons]
    match k, hst with
    | 0, hst =>
      obtain ⟨heq, hst1⟩ :=
        processFail_step0 maint db r t monitorId hm hidr h0 hsr hfr hst
      have hfresh' : ∀ p ∈ rest, ∀ c ∈ (CheckRepository.saveCheck db r).checks,
          c.checkedAt < p.1.timestamp := by
        intro p hp c hc
        rw [saveCheck_checks] at hc
        rcases List.mem_append.mp hc with hc | hc
        · exact hfresh _ (List.mem_cons_of_mem _ hp) c hc
        · rw [List.mem_singleton.mp hc]
          exact hhead p hp
      obtain ⟨hlen, hstf⟩ := ih (CheckRepository.saveCheck db r) 1 hall' htail
        hfresh' hst1
      rw [processAll_cons, heq]
      constructor
      · rw [hlen, saveCheck_incidents]
        have : (if 2 ≤ 1 + rest.length ∧ 1 ≤ 1 then 1 else 0) =
            (if 2 ≤ 0 + (rest.length + 1) ∧ 0 ≤ 1 then 1 else 0) := by
          split_ifs <;> omega
        rw [this]
      · rw [show 0 + (rest.length + 1) = 1 + rest.length from by omega]
        exact hstf
    | 1, hst =>
      obtain ⟨heq, hst2⟩ :=
        processFail_step1 maint db r t monitorId hm hidr h0 hsr hfr hst
      have hfresh' : ∀ p ∈ rest, ∀ c ∈ (IncidentRepository.createIncident
          (CheckRepository.saveCheck db r) monitorId r.monitorName
          (IncidentDetector.determineSeverity r) t).checks,
          c.checkedAt < p.1.timestamp := by
        intro p hp c hc
        rw [createIncident_checks, saveCheck_checks] at hc
        rcases List.mem_append.mp hc with hc | hc
        · exact hfresh _ (List.mem_cons_of_mem _ hp) c hc
        · rw [List.mem_singleton.mp hc]
          exact hhead p hp
      obtain ⟨hlen, hstf⟩ := ih _ 2 hall' htail hfresh' hst2
      rw [processAll_cons, heq]
      constructor
      · rw [hlen, createIncident_incidents_length, saveCheck_incidents]
        split_ifs <;> omega
      · rw [show 1 + (rest.length + 1) = 2 + rest.length from by omega]
        exact hstf
    | m + 2, hst =>
      obtain ⟨incident, hact⟩ := hst
      obtain ⟨heq, hact'⟩ :=
        processFail_stepActive maint db r t monitorId incident hm hidr h0 hsr hact
      have hfresh' : ∀ p ∈ rest, ∀ c ∈ (CheckRepository.saveCheck db r).checks,
          c.checkedAt < p.1.timestamp := by
        intro p hp c hc
        rw [saveCheck_checks] at hc
        rcases List.mem_append.mp hc with hc | hc
        · exact hfresh _ (List.mem_cons_of_mem _ hp) c hc
        · rw [List.mem_singleton.mp hc]
          exact hhead p hp
      obtain ⟨hlen, hstf⟩ := ih (CheckRepository.saveCheck db r) (m + 3) hall' htail
        hfresh' ⟨incident, hact'⟩
      rw [processAll_cons, heq]
      constructor
      · rw [hlen, saveCheck_incidents]
        split_ifs <;> omega
      · rw [show m + 2 + (rest.length + 1) = m + 3 + rest.length from by omega]
        exact hstf

/-- Processing a stream in which no two adjacent results both fail, from
a stage below the threshold, never touches the incident table. -/
theorem processAll_isolated_failures (maint : Nat → Bool) (monitorId : Nat)
    (hm : maint monitorId = false) (h0 : monitorId ≠ 0) :
    ∀ (rs : List (MonitorCheckResult × Nat)) (db : Database) (k : Nat), k ≤ 1 →
      (∀ p ∈ rs, p.1.monitorId = some monitorId) →
      List.Pairwise (fun p q => p.1.timestamp < q.1.timestamp) rs →
      (∀ p ∈ rs, ∀ c ∈ db.checks, c.checkedAt < p.1.timestamp) →
      DetectorStage db monitorId k →
      (k = 1 → ∀ p ∈ rs.head?, p.1.success = true) →
      List.Chain' (fun p q => p.1.success = true ∨ q.1.success = true) rs →
      (IncidentDetector.processAll maint db rs).incidents = db.incidents := by
  intro rs
  induction rs with
  | nil =>
    intro db k _ _ _ _ _ _ _
    rfl
  | cons p rest ih =>
    obtain ⟨r, t⟩ := p
    intro db k hk hall hpair hfresh hst hhd hchain
    have hidr := hall _ (List.mem_cons_self _ _)
    have hfr : ∀ c ∈ db.checks, c.checkedAt < r.timestamp := fun c hc =>
      hfresh _ (List.mem_cons_self _ _) c hc
    obtain ⟨hhead, htail⟩ := List.pairwise_cons.mp hpair
    obtain ⟨hcadj, hctail⟩ := List.chain'_cons'.mp hchain
    have hall' : ∀ p ∈ rest, p.1.monitorId = some monitorId :=
      fun p hp => hall p (List.mem_cons_of_mem _ hp)
    have hactdb : activeIncidentsFor db monitorId = [] := by
      match k, hk, hst with
      | 0, _, hst => exact hst.1
      | 1, _, hst => exact hst.1
    have hfresh' : ∀ p ∈ rest, ∀ c ∈ (CheckRepository.saveCheck db r).checks,
        c.checkedAt < p.1.timestamp := by
      intro p hp c hc
      rw [saveCheck_checks] at hc
      rcases List.mem_append.mp hc with hc | hc
      · exact hfresh _ (List.mem_cons_of_mem _ hp) c hc
      · rw [List.mem_singleton.mp hc]
        exact hhead p hp
    cases hsr : r.success with
    | true =>
      obtain ⟨heq, hst0⟩ :=
        processSuccess_step0 maint db r t monitorId hm hidr h0 hsr hfr hactdb
      rw [processAll_cons, heq]
      rw [ih (CheckRepository.saveCheck db r) 0 (by omega) hall' htail hfresh'
        hst0 (fun h => absurd h (by omega)) hctail]
      exact saveCheck_incidents db r
    | false =>
      have hk0 : k = 0 := by
        rcases Nat.le_one_iff_eq_zero_or_eq_one.mp hk with h | h
        · exact h
        · exfalso
          have := hhd h (r, t) (by simp)
          rw [hsr] at this
          exact Bool.false_ne_true this
      subst hk0
      obtain ⟨heq, hst1⟩ :=
        processFail_step0 maint db r t monitorId hm hidr h0 hsr hfr hst
      rw [processAll_cons, heq]
      rw [ih (CheckRepository.saveCheck db r) 1 (by omega) hall' htail hfresh'
        hst1 ?hd hctail]
      · exact saveCheck_incidents db r
      case hd =>
        intro _ p hp
        rcases hcadj p hp with h | h
        · rw [hsr] at h
          exact absurd h Bool.false_ne_true
        · exact h

/-- C1: for a monitor with no maintenance windows, no active incident and
no pending failure run, processing a stream of strictly-newer check
results for it behaves with threshold hysteresis at
`FAILURE_THRESHOLD = 2`: (a) a stream of consecutive failing results
opens exactly one incident iff the stream has length at least 2 — none is
opened while the run is shorter, and no further one while the opened
incident stays active, which it does, as the single active incident of
the monitor; and (b) a stream in which no two adjacent results both fail
(every failure run has length < 2, bracketed by successes) leaves the
incident table untouched. -/
theorem incident_threshold_hysteresis
    (maint : Nat → Bool) (db : Database) (monitorId : Nat)
    (rs : List (MonitorCheckResult × Nat))
    (hm : maint monitorId = false) (h0 : monitorId ≠ 0)
    (hact : IncidentRepository.getActiveIncident db monitorId = none)
    (hcnt : IncidentDetector.getConsecutiveFailureCount db monitorId = 0)
    (hids : ∀ p ∈ rs, p.1.monitorId = some monitorId)
    (hpair : List.Pairwise (fun p q => p.1.timestamp < q.1.timestamp) rs)
    (hfresh : ∀ p ∈ rs, ∀ c ∈ db.checks, c.checkedAt < p.1.timestamp) :
    ((∀ p ∈ rs, p.1.success = false) →
      (IncidentDetector.processAll maint db rs).incidents.length =
        db.incidents.length + (if 2 ≤ rs.length then 1 else 0) ∧
      (2 ≤ rs.length → ∃ incident,
        activeIncidentsFor (IncidentDetector.processAll maint db rs) monitorId =
          [incident])) ∧
    (List.Chain' (fun p q => p.1.success = true ∨ q.1.success = true) rs →
      (IncidentDetector.processAll maint db rs).incidents = db.incidents) := by
  have hstage0 : DetectorStage db monitorId 0 := by
    refine ⟨(getActiveIncident_eq_none_iff db monitorId).mp hact, ?_⟩
    rw [getConsecutiveFailureCount_eq] at hcnt
    omega
  constructor
  · intro hfail
    obtain ⟨hlen, hstf⟩ := processAll_failures maint monitorId hm h0 rs db 0
      (fun p hp => ⟨hids p hp, hfail p hp⟩) hpair hfresh hstage0
    constructor
    · rw [hlen]
      have : (if 2 ≤ 0 + rs.length ∧ 0 ≤ 1 then 1 else 0) =
          (if 2 ≤ rs.length then 1 else 0) := by
        split_ifs <;> omega
      rw [this]
    · intro h2
      rw [show 0 + rs.length = (rs.length - 2) + 2 from by omega] at hstf
      exact hstf
  · intro hchain
    exact processAll_isolated_failures maint monitorId hm h0 rs db 0 (by omega)
      hids hpair hfresh hstage0 (fun h => absurd h (by omega)) hchain

theorem incident_threshold_hysteresis_witness :
    ((fun (_ : Nat) => false) 1 = false) ∧ (1 : Nat) ≠ 0 ∧
    IncidentRepository.getActiveIncident ⟨[], [], [], 0, 0⟩ 1 = none ∧
    IncidentDetector.getConsecutiveFailureCount ⟨[], [], [], 0, 0⟩ 1 = 0 ∧
    (∀ p ∈ ([(⟨some 1, "m", false, 5, 10, some "timeout", []⟩, 10),
             (⟨some 1, "m", false, 5, 20, some "timeout", []⟩, 20)] :
        List (MonitorCheckResult × Nat)), p.1.success = false) ∧
    (IncidentDetector.processAll (fun _ => false) ⟨[], [], [], 0, 0⟩
        [(⟨some 1, "m", false, 5, 10, some "timeout", []⟩, 10),
         (⟨some 1, "m", false, 5, 20, some "timeout", []⟩, 20)]).incidents.length =
      (⟨[], [], [], 0, 0⟩ : Database).incidents.length +
        (if 2 ≤ ([(⟨some 1, "m", false, 5, 10, some "timeout", []⟩, 10),
                  (⟨some 1, "m", false, 5, 20, some "timeout", []⟩, 20)] :
            List (MonitorCheckResult × Nat)).length then 1 else 0) :=
  ⟨rfl, by decide, by decide, by decide, by decide,
   ((incident_threshold_hysteresis (fun _ => false) ⟨[], [], [], 0, 0⟩ 1
      [(⟨some 1, "m", false, 5, 10, some "timeout", []⟩, 10),
       (⟨some 1, "m", false, 5, 20, some "timeout", []⟩, 20)]
      rfl (by decide) (by decide) (by decide) (by decide) (by decide)
      (by decide)).1 (by decide)).1⟩

end StatusBeacon
